import Mathlib

/-!
# Ray tracer core (`src/raytracer.h`)

A shallow embedding of `struct ray_tracer`: the constructor, `addSphere`,
`addTriangle`, `calculate_hit`, `shader` and `update_image`.

`raytracer.h` includes `engine.h`, which is not part of the sources at hand.
Everything declared there (the glm vector arithmetic, `ray`, `hit_information`,
the `intersect` method of the surfaces, `material`, the lights, the camera) is
taken as a parameter, collected in the structure `engine`.  The functions of
`engine.h` are taken to be pure functions of their arguments.

Conventions.
* `int` values are integers in `[-2^31, 2^31)`; `wrap32` is the result of an
  `int` operation that leaves this range (two's complement).
* `float` values are an arbitrary type `F` with a linear order: the comparison
  `hit.t < h.t` of `calculate_hit` is the order of `F` (no NaN).
* `glm::vec3` is an arbitrary type `Vec`; no algebraic law is assumed for its
  operations, so sums are written in the order the code accumulates them.
* pointers (`material*`) are an arbitrary type `Mat`; a surface object is a
  record holding the members `raytracer.h` reads or writes.
-/

namespace RayTracer

/-- Result of an `int` operation, reduced to the range `[-2^31, 2^31)`. -/
def wrap32 (x : Int) : Int := (x + 2147483648) % 4294967296 - 2147483648

/-- Range of the type `int`. -/
def int_range (x : Int) : Prop := -2147483648 ≤ x ∧ x ≤ 2147483647

/-- A surface object (`surface` of `engine.h`, reached through `surface*`):
the members used by `raytracer.h`.  `intersect` is the virtual method of the
object (sphere or triangle) applied to its own geometry. -/
structure surface (Ray Hit Mat : Type) where
  /-- member `visible` -/
  visible : Bool
  /-- member `m`, a `material*` -/
  m : Mat
  /-- method `intersect(r)` -/
  intersect : Ray → Hit

/-- What `raytracer.h` uses from `engine.h` and glm.  `F` is `float`, `Vec` is
`glm::vec3`, `K` the type of `material::k_s`, `B` is `unsigned char`, `Hit` is
`hit_information`, `Mat` is `material*`, `PL` is `point_light`, `AL` is
`ambient_light`, `Cam` is `camera`. -/
structure engine (F Vec K B Ray Hit Mat PL AL Cam : Type) where
  /-- `glm::vec3{}` and `glm::vec3{0, 0, 0}` -/
  vzero : Vec
  /-- `vec3 + vec3` (also `+=`) -/
  vadd : Vec → Vec → Vec
  /-- `vec3 - vec3` -/
  vsub : Vec → Vec → Vec
  /-- `float * vec3` -/
  fmulv : F → Vec → Vec
  /-- `vec3 * float` -/
  vmulf : Vec → F → Vec
  /-- `vec3 * k_s` -/
  vmulk : Vec → K → Vec
  /-- `glm::dot` -/
  dot : Vec → Vec → F
  /-- `glm::normalize` -/
  normalize : Vec → Vec
  /-- `glm::clamp(color, 0.0f, 1.0f)` -/
  clamp01 : Vec → Vec
  /-- the literal `2.0f` -/
  lit_2 : F
  /-- the literal `0.1f` -/
  lit_0_1 : F
  /-- `glm::vec3(a, b, c)` on integer literals -/
  vec3i : Int → Int → Int → Vec
  /-- `color.r` -/
  chan_r : Vec → F
  /-- `color.g` -/
  chan_g : Vec → F
  /-- `color.b` -/
  chan_b : Vec → F
  /-- `x * 255` converted to `unsigned char` -/
  sample : F → B
  /-- `ray{p, d}` -/
  ray_mk : Vec → Vec → Ray
  /-- `r.d` -/
  ray_d : Ray → Vec
  /-- `r.evaluate(t)` -/
  evaluate : Ray → F → Vec
  /-- `hit_information h{}` -/
  hit_default : Hit
  /-- `hit.hits` -/
  hits : Hit → Int
  /-- `hit.t` -/
  t : Hit → F
  /-- `hit.normal` -/
  normal : Hit → Vec
  /-- `*hit.s`, the surface object `hit.s` points to -/
  s : Hit → surface Ray Hit Mat
  /-- `m->glazed` -/
  glazed : Mat → Bool
  /-- `m->k_s` -/
  k_s : Mat → K
  /-- `l.visible` of a point light -/
  pl_visible : PL → Bool
  /-- `l.illuminate(r, hit, scene, blinn_phong)` of a point light -/
  pl_illuminate : PL → Ray → Hit → List (surface Ray Hit Mat) → Bool → Vec
  /-- `l.visible` of an ambient light -/
  al_visible : AL → Bool
  /-- `l.illuminate(r, hit)` of an ambient light -/
  al_illuminate : AL → Ray → Hit → Vec
  /-- `cam.generate_ray(j, i)` -/
  generate_ray : Cam → Int → Int → Ray
  /-- `camera{}` -/
  camera_default : Cam
  /-- `cam.nx = n` -/
  set_nx : Cam → Int → Cam
  /-- `cam.ny = n` -/
  set_ny : Cam → Int → Cam
  /-- the null pointer of type `material*` -/
  null_material : Mat
  /-- `new material{}` -/
  new_material : Mat
  /-- `new sphere{}` -/
  sphere_default : surface Ray Hit Mat
  /-- `new triangle{}` -/
  triangle_default : surface Ray Hit Mat
  /-- `new triangle{a, b, c}` -/
  triangle_mk : Vec → Vec → Vec → surface Ray Hit Mat
  /-- `ambient_light{}` -/
  ambient_light_default : AL
  /-- `point_light{}` -/
  point_light_default : PL
  /-- contents of a fresh `new unsigned char[n]` -/
  uninit : Int → B

/-- Data members of `struct ray_tracer`.  `image` is the buffer the pointer
`image` refers to, as a map from offsets to bytes. -/
structure ray_tracer (B Ray Hit Mat PL AL Cam : Type) where
  cam : Cam
  res_pow : Int
  export_res_pow : Int
  width : Int
  height : Int
  image : Int → B
  scene : List (surface Ray Hit Mat)
  ambient_lights : List AL
  point_lights : List PL
  materials : List Mat
  blinn_phong : Bool
  bounce_count : Int

section defs

variable {F Vec K B Ray Hit Mat PL AL Cam : Type} [LinearOrder F]

/-- One iteration of the loop of `calculate_hit` (lines 76-90). -/
def calculate_hit_step (E : engine F Vec K B Ray Hit Mat PL AL Cam) (r : Ray)
    (h : Hit) (obj : surface Ray Hit Mat) : Hit :=
  if obj.visible = false then h
  else
    let hit := obj.intersect r
    if E.hits hit ≠ 0 then
      if E.t hit < E.t h then hit else h
    else h

/-- `ray_tracer::calculate_hit` (lines 73-92). -/
def calculate_hit (E : engine F Vec K B Ray Hit Mat PL AL Cam)
    (rt : ray_tracer B Ray Hit Mat PL AL Cam) (r : Ray) : Hit :=
  rt.scene.foldl (calculate_hit_step E r) E.hit_default

/-! ## `shader` -/

/-- The two light loops at the head of `shader` (lines 175-192): the colour
accumulated from `glm::vec3 color{}`. -/
def accumulate_lights (E : engine F Vec K B Ray Hit Mat PL AL Cam)
    (rt : ray_tracer B Ray Hit Mat PL AL Cam) (r : Ray) (hit : Hit) : Vec :=
  let color := rt.point_lights.foldl
    (fun color l =>
      if E.pl_visible l = false then color
      else E.vadd color (E.pl_illuminate l r hit rt.scene rt.blinn_phong))
    E.vzero
  rt.ambient_lights.foldl
    (fun color l =>
      if E.al_visible l = false then color
      else E.vadd color (E.al_illuminate l r hit))
    color

/-- The reflection ray built at lines 204-205:
`l = normalize(r.d - 2.0f*hit.normal*dot(r.d, hit.normal))`,
`reflection = ray{r.evaluate(hit.t) + 0.1f*l, l}`. -/
def reflection_ray (E : engine F Vec K B Ray Hit Mat PL AL Cam) (r : Ray) (hit : Hit) : Ray :=
  let l := E.normalize
    (E.vsub (E.ray_d r)
      (E.vmulf (E.fmulv E.lit_2 (E.normal hit)) (E.dot (E.ray_d r) (E.normal hit))))
  E.ray_mk (E.vadd (E.evaluate r (E.t hit)) (E.fmulv E.lit_0_1 l)) l

/-- What a call of `shader` leaves behind: the returned colour, the value left
in the by-reference argument `depth`, and two counters that are not program
state: the number of reflection rays handed to `calculate_hit` and the number
of recursive calls of `shader`, both over the whole call tree. -/
structure shader_result (Vec : Type) where
  color : Vec
  depth : Int
  reflection_rays : Nat
  calls : Nat
  deriving DecidableEq

/-- `ray_tracer::shader` (lines 173-214).  The first argument bounds the
nesting of calls: `none` means the bound was reached before the call returned.
`depth` is the `int&` argument; `depth++` is `wrap32 (depth + 1)`.  The unused
local `dist` (line 207) is left out. -/
def shader (E : engine F Vec K B Ray Hit Mat PL AL Cam)
    (rt : ray_tracer B Ray Hit Mat PL AL Cam) :
    Nat → Ray → Hit → Int → Option (shader_result Vec)
  | 0, _, _, _ => none
  | fuel + 1, r, hit, depth =>
    let color := accumulate_lights E rt r hit
    if depth > rt.bounce_count then
      some ⟨color, depth, 0, 0⟩
    else
      let depth := wrap32 (depth + 1)
      if E.glazed (E.s hit).m = true then
        let reflection := reflection_ray E r hit
        let reflection_hit := calculate_hit E rt reflection
        if E.hits reflection_hit ≠ 0 then
          match shader E rt fuel reflection reflection_hit depth with
          | none => none
          | some sub =>
            some ⟨E.vadd color (E.vmulk sub.color (E.k_s (E.s hit).m)), sub.depth,
              sub.reflection_rays + 1, sub.calls + 1⟩
        else some ⟨color, depth, 1, 0⟩
      else some ⟨color, depth, 0, 0⟩

/-- The direct-lighting sum in the words of the specification: the
contributions `illuminate` of the visible point lights, then those of the
visible ambient lights, added up starting from the zero colour. -/
def direct_lighting (E : engine F Vec K B Ray Hit Mat PL AL Cam)
    (rt : ray_tracer B Ray Hit Mat PL AL Cam) (r : Ray) (hit : Hit) : Vec :=
  (((rt.point_lights.filter (fun l => E.pl_visible l)).map
      (fun l => E.pl_illuminate l r hit rt.scene rt.blinn_phong)) ++
    ((rt.ambient_lights.filter (fun l => E.al_visible l)).map
      (fun l => E.al_illuminate l r hit))).foldl E.vadd E.vzero

/-! ## Constructor, `addSphere`, `addTriangle` -/

/-- The loop `for (auto& item : scene) item->m = materials[0];` (lines 51-54).
Reading `materials[0]` of an empty vector is outside the language: `none`. -/
def assign_first_material (materials : List Mat) (scene : List (surface Ray Hit Mat)) :
    Option (List (surface Ray Hit Mat)) :=
  scene.mapM (fun item =>
    match materials[0]? with
    | none => none
    | some p => some ⟨item.visible, p, item.intersect⟩)

/-- `ray_tracer::ray_tracer()` (lines 31-59) after the default member
initialisers (lines 15-29). -/
def ray_tracer_new (E : engine F Vec K B Ray Hit Mat PL AL Cam) :
    Option (ray_tracer B Ray Hit Mat PL AL Cam) :=
  let res_pow : Int := 7
  let export_res_pow : Int := 6
  let width : Int := 2 ^ res_pow.toNat
  let height : Int := width
  let image : Int → B := E.uninit
  let cam := E.set_ny (E.set_nx E.camera_default width) height
  let materials : List Mat := [] ++ [E.new_material]
  let p0 := E.vec3i 0 3 0
  let p1 := E.vec3i 1 1 (-1)
  let p2 := E.vec3i (-1) 1 (-1)
  let p3 := E.vec3i 0 1 1
  let scene : List (surface Ray Hit Mat) :=
    [] ++ [E.sphere_default] ++ [E.triangle_default] ++ [E.triangle_mk p1 p2 p3]
      ++ [E.triangle_mk p0 p1 p2] ++ [E.triangle_mk p0 p2 p3] ++ [E.triangle_mk p0 p3 p1]
  match assign_first_material materials scene with
  | none => none
  | some scene =>
    some ⟨cam, res_pow, export_res_pow, width, height, image, scene,
      [] ++ [E.ambient_light_default], [] ++ [E.point_light_default], materials, false, 1⟩

/-- `scene.push_back(obj); scene.back()->m = materials[0];` -/
def push_surface (rt : ray_tracer B Ray Hit Mat PL AL Cam) (obj : surface Ray Hit Mat) :
    Option (ray_tracer B Ray Hit Mat PL AL Cam) :=
  match rt.materials[0]? with
  | none => none
  | some p =>
    some ⟨rt.cam, rt.res_pow, rt.export_res_pow, rt.width, rt.height, rt.image,
      rt.scene ++ [⟨obj.visible, p, obj.intersect⟩],
      rt.ambient_lights, rt.point_lights, rt.materials, rt.blinn_phong, rt.bounce_count⟩

/-- `ray_tracer::addSphere` (lines 61-65). -/
def addSphere (E : engine F Vec K B Ray Hit Mat PL AL Cam)
    (rt : ray_tracer B Ray Hit Mat PL AL Cam) : Option (ray_tracer B Ray Hit Mat PL AL Cam) :=
  push_surface rt E.sphere_default

/-- `ray_tracer::addTriangle` (lines 67-71). -/
def addTriangle (E : engine F Vec K B Ray Hit Mat PL AL Cam)
    (rt : ray_tracer B Ray Hit Mat PL AL Cam) : Option (ray_tracer B Ray Hit Mat PL AL Cam) :=
  push_surface rt E.triangle_default

/-- The two operations that add a surface. -/
inductive add_op where
  | sphere
  | triangle
  deriving DecidableEq, Repr

/-- One call of `addSphere` or `addTriangle`. -/
def apply_op (E : engine F Vec K B Ray Hit Mat PL AL Cam) (o : add_op)
    (rt : ray_tracer B Ray Hit Mat PL AL Cam) : Option (ray_tracer B Ray Hit Mat PL AL Cam) :=
  match o with
  | .sphere => addSphere E rt
  | .triangle => addTriangle E rt

/-- A sequence of calls, first to last. -/
def apply_ops (E : engine F Vec K B Ray Hit Mat PL AL Cam) :
    List add_op → ray_tracer B Ray Hit Mat PL AL Cam → Option (ray_tracer B Ray Hit Mat PL AL Cam)
  | [], rt => some rt
  | o :: os, rt =>
    match apply_op E o rt with
    | none => none
    | some rt1 => apply_ops E os rt1

/-- The material invariant: `materials` is non-empty and the member `m` of
every surface of `scene` is not the null pointer and is an entry of
`materials` at a valid index. -/
def material_invariant (E : engine F Vec K B Ray Hit Mat PL AL Cam)
    (rt : ray_tracer B Ray Hit Mat PL AL Cam) : Prop :=
  rt.materials ≠ [] ∧
  ∀ obj ∈ rt.scene, obj.m ≠ E.null_material ∧ ∃ i : Nat, rt.materials[i]? = some obj.m

/-! ## `update_image` -/

/-- The assignment `image[a] = v`. -/
def store (image : Int → B) (a : Int) (v : B) : Int → B :=
  fun x => if x = a then v else image x

/-- Body of the inner loop of `update_image` (lines 108-128) for the pixel in
column `j` of row `i`.  `int depth{}` is a local of the body. -/
def update_pixel (E : engine F Vec K B Ray Hit Mat PL AL Cam)
    (rt : ray_tracer B Ray Hit Mat PL AL Cam) (fuel : Nat) (image : Int → B) (i j : Int) :
    Option (Int → B) :=
  let idx := wrap32 (wrap32 (wrap32 (i * rt.width) + j) * 3)
  let r := E.generate_ray rt.cam j i
  let closest_hit := calculate_hit E rt r
  let depth : Int := 0
  let shaded : Option Vec :=
    if E.hits closest_hit ≠ 0 then
      match shader E rt fuel r closest_hit depth with
      | none => none
      | some res => some res.color
    else some E.vzero
  match shaded with
  | none => none
  | some color =>
    let color := E.clamp01 color
    let image := store image (wrap32 (idx + 0)) (E.sample (E.chan_r color))
    let image := store image (wrap32 (idx + 1)) (E.sample (E.chan_g color))
    let image := store image (wrap32 (idx + 2)) (E.sample (E.chan_b color))
    some image

/-- The inner loop `for (int j = 0; j < width; j++)` of `update_image`. -/
def update_row (E : engine F Vec K B Ray Hit Mat PL AL Cam)
    (rt : ray_tracer B Ray Hit Mat PL AL Cam) (fuel : Nat) (image : Int → B) (i : Int) :
    Option (Int → B) :=
  (List.range rt.width.toNat).foldlM
    (fun image (j : Nat) => update_pixel E rt fuel image i (j : Int)) image

/-- The pixel loops of `ray_tracer::update_image` (lines 104-130): the contents
of the buffer `image` after them.  The upload of the texture (lines 132-140)
is not modelled. -/
def update_image (E : engine F Vec K B Ray Hit Mat PL AL Cam)
    (rt : ray_tracer B Ray Hit Mat PL AL Cam) (fuel : Nat) : Option (Int → B) :=
  (List.range rt.height.toNat).foldlM
    (fun image (i : Nat) => update_row E rt fuel image (i : Int)) rt.image

/-- The colour of the pixel in column `j` of row `i` in the words of the
specification: `shader(ray, hit, 0)` when the camera ray hits, black
otherwise, then clamped. -/
def pixel_color (E : engine F Vec K B Ray Hit Mat PL AL Cam)
    (rt : ray_tracer B Ray Hit Mat PL AL Cam) (fuel : Nat) (j i : Int) : Option Vec :=
  let ray := E.generate_ray rt.cam j i
  let hit := calculate_hit E rt ray
  if E.hits hit ≠ 0 then (shader E rt fuel ray hit 0).map (fun res => E.clamp01 res.color)
  else some (E.clamp01 E.vzero)

/-- The three bytes of the pixel in column `j` of row `i` hold the samples of
`pixel_color`. -/
def pixel_stored (E : engine F Vec K B Ray Hit Mat PL AL Cam)
    (rt : ray_tracer B Ray Hit Mat PL AL Cam) (fuel : Nat) (image : Int → B) (i j : Int) : Prop :=
  ∃ color, pixel_color E rt fuel j i = some color ∧
    image ((i * rt.width + j) * 3) = E.sample (E.chan_r color) ∧
    image ((i * rt.width + j) * 3 + 1) = E.sample (E.chan_g color) ∧
    image ((i * rt.width + j) * 3 + 2) = E.sample (E.chan_b color)

/-- The offsets written for the pixel in column `j` of row `i`. -/
def pixel_block (width : Int) (i j : Int) (x : Int) : Prop :=
  x = (i * width + j) * 3 ∨ x = (i * width + j) * 3 + 1 ∨ x = (i * width + j) * 3 + 2

/-- What holds of every state built by the constructor and the add
operations: `materials` holds the one material made by the constructor and
every surface refers to it. -/
def single_material (E : engine F Vec K B Ray Hit Mat PL AL Cam)
    (rt : ray_tracer B Ray Hit Mat PL AL Cam) : Prop :=
  rt.materials = [E.new_material] ∧ ∀ obj ∈ rt.scene, obj.m = E.new_material

/-- Modelled from the spec: `ambient_light::illuminate(r, hit)` of `engine.h`,
which is not among the sources.  The specification (sections 3 and 8) gives
its value as `material.k_a * I`: the intensity `I` of the light scaled by the
ambient coefficient `k_a` of the material of the surface hit, with no
dependence on the ray.  The member `k_a`, the intensity of a light and the
product are declared in `engine.h` and are parameters. -/
def ambient_illuminate {KA I : Type} (k_a : Mat → KA) (intensity : AL → I) (mul : KA → I → Vec)
    (E : engine F Vec K B Ray Hit Mat PL AL Cam) (l : AL) (hit : Hit) : Vec :=
  mul (k_a (E.s hit).m) (intensity l)

end defs

/-! ## A small concrete instance

Numbers stand for every type: a hit is `(hits, t, material)`, a light is
`(visible, contribution)`, material `1` is glazed and material `2` is not. -/

/-- A hit record of the concrete instance. -/
abbrev toy_hit : Type := Int × Int × Nat

/-- A surface of the concrete instance: visible or not, hit by every ray at
parameter `t` with material `mat`. -/
def toy_surface (visible : Bool) (t : Int) (mat : Nat) : surface Int toy_hit Nat :=
  ⟨visible, mat, fun _ => (1, t, mat)⟩

/-- A surface of the concrete instance that no ray hits. -/
def toy_missed (mat : Nat) : surface Int toy_hit Nat :=
  ⟨true, mat, fun _ => (0, 0, mat)⟩

/-- The concrete instance of `engine`. -/
def toy_engine : engine Int Int Int Int Int toy_hit Nat (Bool × Int) (Bool × Int) (Int × Int) where
  vzero := 0
  vadd := fun a b => a + b
  vsub := fun a b => a - b
  fmulv := fun a b => a * b
  vmulf := fun a b => a * b
  vmulk := fun a b => a * b
  dot := fun a b => a * b
  normalize := fun a => a
  clamp01 := fun a => max 0 (min 1 a)
  lit_2 := 2
  lit_0_1 := 1
  vec3i := fun a _ _ => a
  chan_r := fun a => a
  chan_g := fun a => a
  chan_b := fun a => a
  sample := fun a => a * 255
  ray_mk := fun p _ => p
  ray_d := fun r => r
  evaluate := fun r t => r + t
  hit_default := (0, 1000, 0)
  hits := fun h => h.1
  t := fun h => h.2.1
  normal := fun _ => 1
  s := fun h => toy_surface true h.2.1 h.2.2
  glazed := fun m => decide (m = 1)
  k_s := fun _ => 1
  pl_visible := fun l => l.1
  pl_illuminate := fun l _ _ _ _ => l.2
  al_visible := fun l => l.1
  al_illuminate := fun l _ _ => l.2
  generate_ray := fun _ j i => j + i
  camera_default := (0, 0)
  set_nx := fun c n => (n, c.2)
  set_ny := fun c n => (c.1, n)
  null_material := 0
  new_material := 1
  sphere_default := toy_surface true 5 0
  triangle_default := toy_surface true 7 0
  triangle_mk := fun _ _ _ => toy_surface true 9 0
  ambient_light_default := (true, 1)
  point_light_default := (true, 2)
  uninit := fun _ => 0

/-- A state of the concrete instance with the given scene, one visible ambient
light contributing `1`, no point light, and the given `bounce_count`; the
image is `w` by `h`. -/
def toy_tracer (scene : List (surface Int toy_hit Nat)) (bounce_count : Int) (w h : Int) :
    ray_tracer Int Int toy_hit Nat (Bool × Int) (Bool × Int) (Int × Int) :=
  ⟨(w, h), 7, 6, w, h, fun _ => 0, scene, [(true, 1)], [], [1, 2], false, bounce_count⟩


/-- A state of the concrete instance with the given scene, no point light, an
invisible ambient light contributing `9` and a visible one contributing `6`,
and the given `bounce_count`; the image is 1 by 1. -/
def toy_tracer_ambient (scene : List (surface Int toy_hit Nat)) (bounce_count : Int) :
    ray_tracer Int Int toy_hit Nat (Bool × Int) (Bool × Int) (Int × Int) :=
  ⟨(1, 1), 7, 6, 1, 1, fun _ => 0, scene, [(false, 9), (true, 6)], [], [1, 2], false,
    bounce_count⟩


section lemmas

variable {F Vec K B Ray Hit Mat PL AL Cam : Type} [LinearOrder F]

/-! ## Lemmas on `calculate_hit` -/

theorem calculate_hit_step_invisible (E : engine F Vec K B Ray Hit Mat PL AL Cam) (r : Ray)
    (h : Hit) (obj : surface Ray Hit Mat) (hv : obj.visible = false) :
    calculate_hit_step E r h obj = h := by
  simp [calculate_hit_step, hv]

theorem calculate_hit_step_cases (E : engine F Vec K B Ray Hit Mat PL AL Cam) (r : Ray)
    (h : Hit) (obj : surface Ray Hit Mat) :
    (calculate_hit_step E r h obj = h ∧
      (obj.visible = true → E.hits (obj.intersect r) ≠ 0 → E.t h ≤ E.t (obj.intersect r))) ∨
    (calculate_hit_step E r h obj = obj.intersect r ∧ obj.visible = true ∧
      E.hits (obj.intersect r) ≠ 0 ∧ E.t (obj.intersect r) < E.t h) := by
  unfold calculate_hit_step
  by_cases hv : obj.visible = false
  · left
    simp [hv]
  · have hv1 : obj.visible = true := by simpa using hv
    by_cases hh : E.hits (obj.intersect r) ≠ 0
    · by_cases ht : E.t (obj.intersect r) < E.t h
      · right
        simp [hv1, hh, ht]
      · left
        refine ⟨by simp [hv1, hh, ht], fun _ _ => not_lt.mp ht⟩
    · left
      refine ⟨by simp [hv1, hh], fun _ h2 => absurd h2 hh⟩

/-- The scan either keeps its starting value or ends on the hit of a visible
surface that reports a hit. -/
theorem foldl_step_origin (E : engine F Vec K B Ray Hit Mat PL AL Cam) (r : Ray)
    (l : List (surface Ray Hit Mat)) (h : Hit) :
    l.foldl (calculate_hit_step E r) h = h ∨
    ∃ obj ∈ l, obj.visible = true ∧ E.hits (obj.intersect r) ≠ 0 ∧
      E.t (obj.intersect r) < E.t h ∧
      l.foldl (calculate_hit_step E r) h = obj.intersect r := by
  induction l generalizing h with
  | nil => left; rfl
  | cons x xs ih =>
    rw [List.foldl_cons]
    rcases calculate_hit_step_cases E r h x with ⟨e, _⟩ | ⟨e, hv, hh, ht⟩
    · rw [e]
      rcases ih h with e2 | ⟨obj, hm, hv, hh, ht, e2⟩
      · left; exact e2
      · right; exact ⟨obj, List.mem_cons_of_mem _ hm, hv, hh, ht, e2⟩
    · rw [e]
      rcases ih (x.intersect r) with e2 | ⟨obj, hm, hv2, hh2, ht2, e2⟩
      · right; exact ⟨x, List.mem_cons_self _ _, hv, hh, ht, e2⟩
      · right; exact ⟨obj, List.mem_cons_of_mem _ hm, hv2, hh2, lt_trans ht2 ht, e2⟩

/-- The scan never ends above its starting value nor above the hit of a
visible surface that reports a hit. -/
theorem foldl_step_le (E : engine F Vec K B Ray Hit Mat PL AL Cam) (r : Ray)
    (l : List (surface Ray Hit Mat)) (h : Hit) :
    E.t (l.foldl (calculate_hit_step E r) h) ≤ E.t h ∧
    ∀ obj ∈ l, obj.visible = true → E.hits (obj.intersect r) ≠ 0 →
      E.t (l.foldl (calculate_hit_step E r) h) ≤ E.t (obj.intersect r) := by
  induction l generalizing h with
  | nil => exact ⟨le_refl _, fun _ hm => absurd hm (List.not_mem_nil _)⟩
  | cons x xs ih =>
    rw [List.foldl_cons]
    obtain ⟨ih1, ih2⟩ := ih (calculate_hit_step E r h x)
    rcases calculate_hit_step_cases E r h x with ⟨e, hx⟩ | ⟨e, hv, hh, ht⟩
    · rw [e] at ih1 ih2 ⊢
      refine ⟨ih1, fun obj hm hv hh => ?_⟩
      rcases List.mem_cons.mp hm with rfl | hm
      · exact le_trans ih1 (hx hv hh)
      · exact ih2 obj hm hv hh
    · rw [e] at ih1 ih2 ⊢
      refine ⟨le_trans ih1 (le_of_lt ht), fun obj hm hv hh => ?_⟩
      rcases List.mem_cons.mp hm with rfl | hm
      · exact ih1
      · exact ih2 obj hm hv hh

/-- Invisible surfaces can be dropped from the scan. -/
theorem foldl_step_filter (E : engine F Vec K B Ray Hit Mat PL AL Cam) (r : Ray)
    (l : List (surface Ray Hit Mat)) (h : Hit) :
    l.foldl (calculate_hit_step E r) h =
      (l.filter (fun obj => obj.visible)).foldl (calculate_hit_step E r) h := by
  induction l generalizing h with
  | nil => rfl
  | cons x xs ih =>
    by_cases hv : x.visible = true
    · rw [List.filter_cons_of_pos hv, List.foldl_cons, List.foldl_cons, ih]
    · have hv0 : x.visible = false := by simpa using hv
      rw [List.filter_cons_of_neg hv, List.foldl_cons,
        calculate_hit_step_invisible E r h x hv0, ih]

/-- Two surfaces can be scanned in either order unless both are visible and
report a hit at the same `t`. -/
theorem calculate_hit_step_comm (E : engine F Vec K B Ray Hit Mat PL AL Cam) (r : Ray)
    (h : Hit) (a b : surface Ray Hit Mat)
    (hab : a.visible = true → b.visible = true → E.hits (a.intersect r) ≠ 0 →
      E.hits (b.intersect r) ≠ 0 → E.t (a.intersect r) ≠ E.t (b.intersect r)) :
    calculate_hit_step E r (calculate_hit_step E r h a) b =
      calculate_hit_step E r (calculate_hit_step E r h b) a := by
  rcases calculate_hit_step_cases E r h a with ⟨ea, ha⟩ | ⟨ea, hva, hha, hta⟩
  · rcases calculate_hit_step_cases E r h b with ⟨eb, hb⟩ | ⟨eb, hvb, hhb, htb⟩
    · rw [ea, eb, ea]
    · rw [ea, eb]
      rcases calculate_hit_step_cases E r (b.intersect r) a with ⟨e, _⟩ | ⟨_, hva, hha, hlt⟩
      · exact e.symm
      · exact absurd (lt_of_lt_of_le (lt_trans hlt htb) (ha hva hha)) (lt_irrefl _)
  · rcases calculate_hit_step_cases E r h b with ⟨eb, hb⟩ | ⟨eb, hvb, hhb, htb⟩
    · rw [ea, eb, ea]
      rcases calculate_hit_step_cases E r (a.intersect r) b with ⟨e, _⟩ | ⟨_, hvb, hhb, hlt⟩
      · exact e
      · exact absurd (lt_of_lt_of_le (lt_trans hlt hta) (hb hvb hhb)) (lt_irrefl _)
    · rw [ea, eb]
      have hne := hab hva hvb hha hhb
      rcases lt_or_gt_of_ne hne with hlt | hgt
      · rcases calculate_hit_step_cases E r (a.intersect r) b with ⟨e1, _⟩ | ⟨_, _, _, h1⟩
        · rcases calculate_hit_step_cases E r (b.intersect r) a with ⟨_, h2⟩ | ⟨e2, _, _, _⟩
          · exact absurd (lt_of_lt_of_le hlt (h2 hva hha)) (lt_irrefl _)
          · rw [e1, e2]
        · exact absurd (lt_trans hlt h1) (lt_irrefl _)
      · rcases calculate_hit_step_cases E r (b.intersect r) a with ⟨e1, _⟩ | ⟨_, _, _, h1⟩
        · rcases calculate_hit_step_cases E r (a.intersect r) b with ⟨_, h2⟩ | ⟨e2, _, _, _⟩
          · exact absurd (lt_of_lt_of_le hgt (h2 hvb hhb)) (lt_irrefl _)
          · rw [e1, e2]
        · exact absurd (lt_trans hgt h1) (lt_irrefl _)

end lemmas


section calculate_hit_claims

variable {F Vec K B Ray Hit Mat PL AL Cam : Type} [LinearOrder F]

/-- C1: when a default-constructed `hit_information` has `hits = 0` and
`calculate_hit(r)` returns a hit with `hits != 0`, that hit is the result of
`intersect(r)` of a surface of the scene with `visible == true`, and its `t`
is at most the `t` of `intersect(r)` of every visible surface of the scene
that reports a hit.  (The sentinel `t` of the default hit is not needed.) -/
theorem calculate_hit_is_nearest_visible (E : engine F Vec K B Ray Hit Mat PL AL Cam)
    (rt : ray_tracer B Ray Hit Mat PL AL Cam) (r : Ray)
    (hdefault : E.hits E.hit_default = 0)
    (hres : E.hits (calculate_hit E rt r) ≠ 0) :
    (∃ obj ∈ rt.scene, obj.visible = true ∧ calculate_hit E rt r = obj.intersect r) ∧
    ∀ obj ∈ rt.scene, obj.visible = true → E.hits (obj.intersect r) ≠ 0 →
      E.t (calculate_hit E rt r) ≤ E.t (obj.intersect r) := by
  refine ⟨?_, (foldl_step_le E r rt.scene E.hit_default).2⟩
  rcases foldl_step_origin E r rt.scene E.hit_default with e | ⟨obj, hm, hv, _, _, e⟩
  · exact absurd (by rw [calculate_hit, e]; exact hdefault) hres
  · exact ⟨obj, hm, hv, e⟩

/-- Witness of C1: a visible surface at `t = 5`, an invisible one at `t = 2`
and a visible one at `t = 3`. -/
theorem calculate_hit_is_nearest_visible_witness :
    toy_engine.hits toy_engine.hit_default = 0 ∧
    toy_engine.hits (calculate_hit toy_engine
      (toy_tracer [toy_surface true 5 1, toy_surface false 2 2, toy_surface true 3 2] 0 1 1) 0)
      ≠ 0 ∧
    ((∃ obj ∈ (toy_tracer [toy_surface true 5 1, toy_surface false 2 2, toy_surface true 3 2]
          0 1 1).scene,
        obj.visible = true ∧
        calculate_hit toy_engine
          (toy_tracer [toy_surface true 5 1, toy_surface false 2 2, toy_surface true 3 2] 0 1 1)
          0 = obj.intersect 0) ∧
      ∀ obj ∈ (toy_tracer [toy_surface true 5 1, toy_surface false 2 2, toy_surface true 3 2]
          0 1 1).scene,
        obj.visible = true → toy_engine.hits (obj.intersect 0) ≠ 0 →
        toy_engine.t (calculate_hit toy_engine
          (toy_tracer [toy_surface true 5 1, toy_surface false 2 2, toy_surface true 3 2] 0 1 1)
          0) ≤ toy_engine.t (obj.intersect 0)) :=
  ⟨by decide, by decide,
    calculate_hit_is_nearest_visible toy_engine
      (toy_tracer [toy_surface true 5 1, toy_surface false 2 2, toy_surface true 3 2] 0 1 1) 0
      (by decide) (by decide)⟩

/-- C4: `calculate_hit` returns what it returns on the scene with every
surface with `visible == false` removed, whatever those surfaces report. -/
theorem calculate_hit_ignores_invisible (E : engine F Vec K B Ray Hit Mat PL AL Cam)
    (rt : ray_tracer B Ray Hit Mat PL AL Cam) (r : Ray) :
    calculate_hit E rt r =
      calculate_hit E
        ⟨rt.cam, rt.res_pow, rt.export_res_pow, rt.width, rt.height, rt.image,
          rt.scene.filter (fun obj => obj.visible),
          rt.ambient_lights, rt.point_lights, rt.materials, rt.blinn_phong, rt.bounce_count⟩ r := by
  unfold calculate_hit
  exact foldl_step_filter E r rt.scene E.hit_default

/-- C5: permuting the scene does not change the result of `calculate_hit`
when the visible surfaces that report a hit have pairwise different `t`; and
for two visible surfaces `A`, `B` that report hits with different `t` below
the sentinel `t` of the default hit, the scenes `[A, B]` and `[B, A]` both
give the hit with the smaller `t`. -/
theorem calculate_hit_order_irrelevant (E : engine F Vec K B Ray Hit Mat PL AL Cam) (r : Ray) :
    (∀ rt rt2 : ray_tracer B Ray Hit Mat PL AL Cam, rt.scene.Perm rt2.scene →
      rt.scene.Pairwise (fun a b => a.visible = true → b.visible = true →
        E.hits (a.intersect r) ≠ 0 → E.hits (b.intersect r) ≠ 0 →
        E.t (a.intersect r) ≠ E.t (b.intersect r)) →
      calculate_hit E rt r = calculate_hit E rt2 r) ∧
    (∀ (rt rt2 : ray_tracer B Ray Hit Mat PL AL Cam) (A C : surface Ray Hit Mat),
      rt.scene = [A, C] → rt2.scene = [C, A] →
      A.visible = true → C.visible = true →
      E.hits (A.intersect r) ≠ 0 → E.hits (C.intersect r) ≠ 0 →
      E.t (A.intersect r) ≠ E.t (C.intersect r) →
      E.t (A.intersect r) < E.t E.hit_default → E.t (C.intersect r) < E.t E.hit_default →
      calculate_hit E rt r = calculate_hit E rt2 r ∧
      calculate_hit E rt r =
        if E.t (A.intersect r) < E.t (C.intersect r) then A.intersect r else C.intersect r) := by
  have hperm : ∀ rt rt2 : ray_tracer B Ray Hit Mat PL AL Cam, rt.scene.Perm rt2.scene →
      rt.scene.Pairwise (fun a b => a.visible = true → b.visible = true →
        E.hits (a.intersect r) ≠ 0 → E.hits (b.intersect r) ≠ 0 →
        E.t (a.intersect r) ≠ E.t (b.intersect r)) →
      calculate_hit E rt r = calculate_hit E rt2 r := by
    intro rt rt2 hp hpw
    unfold calculate_hit
    refine List.Perm.foldl_eq' hp (fun x hx y hy z => ?_) E.hit_default
    by_cases hxy : x = y
    · rw [hxy]
    · refine calculate_hit_step_comm E r z x y ?_
      have hsymm : Symmetric (fun a b : surface Ray Hit Mat => a.visible = true →
          b.visible = true → E.hits (a.intersect r) ≠ 0 → E.hits (b.intersect r) ≠ 0 →
          E.t (a.intersect r) ≠ E.t (b.intersect r)) :=
        fun a b hab hb ha hhb hha => (hab ha hb hha hhb).symm
      exact hpw.forall hsymm hx hy hxy
  refine ⟨hperm, ?_⟩
  intro rt rt2 A C hs hs2 hvA hvC hhA hhC hne htA htC
  refine ⟨hperm rt rt2 (by rw [hs, hs2]; exact List.Perm.swap C A []) ?_, ?_⟩
  · rw [hs]
    simp only [List.pairwise_cons, List.mem_singleton, forall_eq, List.not_mem_nil,
      List.Pairwise.nil, and_true]
    exact ⟨fun _ _ _ _ => hne, fun _ h => absurd h (by simp)⟩
  · unfold calculate_hit
    rw [hs]
    simp only [List.foldl_cons, List.foldl_nil]
    have e1 : calculate_hit_step E r E.hit_default A = A.intersect r := by
      simp [calculate_hit_step, hvA, hhA, htA]
    rw [e1]
    simp [calculate_hit_step, hvC, hhC]
    rcases lt_or_gt_of_ne hne with hlt | hgt
    · simp [hlt, not_lt.mpr (le_of_lt hlt)]
    · simp [hgt, not_lt.mpr (le_of_lt hgt)]

/-- Witness of C5: three visible surfaces at `t = 5`, `t = 3`, `t = 7` and a
rotation of them; and the surfaces at `t = 5` and `t = 3` in both orders. -/
theorem calculate_hit_order_irrelevant_witness :
    (calculate_hit toy_engine
        (toy_tracer [toy_surface true 5 1, toy_surface true 3 2, toy_surface true 7 1] 0 1 1) 0 =
      calculate_hit toy_engine
        (toy_tracer [toy_surface true 7 1, toy_surface true 5 1, toy_surface true 3 2] 0 1 1) 0) ∧
    ((toy_engine.t ((toy_surface true 5 1).intersect 0)
        ≠ toy_engine.t ((toy_surface true 3 2).intersect 0) ∧
      toy_engine.t ((toy_surface true 5 1).intersect 0) < toy_engine.t toy_engine.hit_default ∧
      toy_engine.t ((toy_surface true 3 2).intersect 0) < toy_engine.t toy_engine.hit_default) ∧
      calculate_hit toy_engine (toy_tracer [toy_surface true 5 1, toy_surface true 3 2] 0 1 1) 0 =
        calculate_hit toy_engine (toy_tracer [toy_surface true 3 2, toy_surface true 5 1] 0 1 1) 0
      ∧ calculate_hit toy_engine (toy_tracer [toy_surface true 5 1, toy_surface true 3 2] 0 1 1) 0 =
        if toy_engine.t ((toy_surface true 5 1).intersect 0)
            < toy_engine.t ((toy_surface true 3 2).intersect 0)
        then (toy_surface true 5 1).intersect 0 else (toy_surface true 3 2).intersect 0) :=
  ⟨(calculate_hit_order_irrelevant toy_engine 0).1
      (toy_tracer [toy_surface true 5 1, toy_surface true 3 2, toy_surface true 7 1] 0 1 1)
      (toy_tracer [toy_surface true 7 1, toy_surface true 5 1, toy_surface true 3 2] 0 1 1)
      (List.perm_append_comm :
        ([toy_surface true 5 1, toy_surface true 3 2] ++ [toy_surface true 7 1]).Perm
          ([toy_surface true 7 1] ++ [toy_surface true 5 1, toy_surface true 3 2]))
      (by decide),
    ⟨by decide, by decide, by decide⟩,
    (calculate_hit_order_irrelevant toy_engine 0).2
      (toy_tracer [toy_surface true 5 1, toy_surface true 3 2] 0 1 1)
      (toy_tracer [toy_surface true 3 2, toy_surface true 5 1] 0 1 1)
      (toy_surface true 5 1) (toy_surface true 3 2) rfl rfl rfl rfl
      (by decide) (by decide) (by decide) (by decide) (by decide)⟩

end calculate_hit_claims


section light_lemmas

variable {F Vec K B Ray Hit Mat PL AL Cam : Type}

/-- A loop that skips the invisible lights adds up the contributions of the
visible ones. -/
theorem foldl_skip_invisible {L : Type} (vis : L → Bool) (f : L → Vec) (add : Vec → Vec → Vec)
    (l : List L) (c : Vec) :
    l.foldl (fun color x => if vis x = false then color else add color (f x)) c =
      ((l.filter (fun x => vis x)).map f).foldl add c := by
  induction l generalizing c with
  | nil => rfl
  | cons x xs ih =>
    by_cases hv : vis x = true
    · rw [List.filter_cons_of_pos hv, List.map_cons, List.foldl_cons, List.foldl_cons, ih]
      simp [hv]
    · have hv0 : vis x = false := by simpa using hv
      rw [List.filter_cons_of_neg hv, List.foldl_cons, ih]
      simp [hv0]

/-- The light loops of `shader` compute the direct-lighting sum. -/
theorem accumulate_lights_eq (E : engine F Vec K B Ray Hit Mat PL AL Cam)
    (rt : ray_tracer B Ray Hit Mat PL AL Cam) (r : Ray) (hit : Hit) :
    accumulate_lights E rt r hit = direct_lighting E rt r hit := by
  unfold accumulate_lights direct_lighting
  rw [List.foldl_append]
  simp only []
  rw [foldl_skip_invisible E.pl_visible
      (fun l => E.pl_illuminate l r hit rt.scene rt.blinn_phong) E.vadd,
    foldl_skip_invisible E.al_visible (fun l => E.al_illuminate l r hit) E.vadd]

end light_lemmas

section shader_lemmas

variable {F Vec K B Ray Hit Mat PL AL Cam : Type} [LinearOrder F]

/-! ## Lemmas on `shader` -/

theorem wrap32_of_range (x : Int) (h : int_range x) : wrap32 x = x := by
  unfold int_range at h
  unfold wrap32
  omega

theorem wrap32_range (x : Int) : int_range (wrap32 x) := by
  unfold int_range wrap32
  omega

/-- A call at a depth above `bounce_count` returns the accumulated colour. -/
theorem shader_above_limit (E : engine F Vec K B Ray Hit Mat PL AL Cam)
    (rt : ray_tracer B Ray Hit Mat PL AL Cam) (fuel : Nat) (r : Ray) (hit : Hit) (depth : Int)
    (hd : depth > rt.bounce_count) :
    shader E rt (fuel + 1) r hit depth = some ⟨accumulate_lights E rt r hit, depth, 0, 0⟩ := by
  simp [shader, hd]

/-- A call on a material that is not glazed returns the accumulated colour. -/
theorem shader_not_glazed (E : engine F Vec K B Ray Hit Mat PL AL Cam)
    (rt : ray_tracer B Ray Hit Mat PL AL Cam) (fuel : Nat) (r : Ray) (hit : Hit) (depth : Int)
    (hd : ¬ depth > rt.bounce_count) (hg : E.glazed (E.s hit).m = false) :
    shader E rt (fuel + 1) r hit depth =
      some ⟨accumulate_lights E rt r hit, wrap32 (depth + 1), 0, 0⟩ := by
  simp [shader, hd, hg]

/-- A call whose reflection ray hits nothing returns the accumulated colour. -/
theorem shader_reflection_misses (E : engine F Vec K B Ray Hit Mat PL AL Cam)
    (rt : ray_tracer B Ray Hit Mat PL AL Cam) (fuel : Nat) (r : Ray) (hit : Hit) (depth : Int)
    (hd : ¬ depth > rt.bounce_count) (hg : E.glazed (E.s hit).m = true)
    (hm : E.hits (calculate_hit E rt (reflection_ray E r hit)) = 0) :
    shader E rt (fuel + 1) r hit depth =
      some ⟨accumulate_lights E rt r hit, wrap32 (depth + 1), 1, 0⟩ := by
  simp [shader, hd, hg, hm]

/-- A call whose reflection ray hits recurses on the reflection hit. -/
theorem shader_reflection_hits (E : engine F Vec K B Ray Hit Mat PL AL Cam)
    (rt : ray_tracer B Ray Hit Mat PL AL Cam) (fuel : Nat) (r : Ray) (hit : Hit) (depth : Int)
    (hd : ¬ depth > rt.bounce_count) (hg : E.glazed (E.s hit).m = true)
    (hm : E.hits (calculate_hit E rt (reflection_ray E r hit)) ≠ 0) :
    shader E rt (fuel + 1) r hit depth =
      (shader E rt fuel (reflection_ray E r hit)
        (calculate_hit E rt (reflection_ray E r hit)) (wrap32 (depth + 1))).map
        (fun sub => ⟨E.vadd (accumulate_lights E rt r hit)
            (E.vmulk sub.color (E.k_s (E.s hit).m)),
          sub.depth, sub.reflection_rays + 1, sub.calls + 1⟩) := by
  rw [shader]
  simp only [hd, hg, hm, if_false, if_true, ne_eq, not_false_eq_true]
  cases shader E rt fuel (reflection_ray E r hit)
    (calculate_hit E rt (reflection_ray E r hit)) (wrap32 (depth + 1)) <;> rfl

/-- A call that returns within a bound returns the same within a larger one. -/
theorem shader_fuel_succ (E : engine F Vec K B Ray Hit Mat PL AL Cam)
    (rt : ray_tracer B Ray Hit Mat PL AL Cam) (fuel : Nat) :
    ∀ (r : Ray) (hit : Hit) (depth : Int) (res : shader_result Vec),
      shader E rt fuel r hit depth = some res → shader E rt (fuel + 1) r hit depth = some res := by
  induction fuel with
  | zero => intro r hit depth res h; simp [shader] at h
  | succ n ih =>
    intro r hit depth res h
    by_cases hd : depth > rt.bounce_count
    · rw [shader_above_limit E rt n r hit depth hd] at h
      rw [shader_above_limit E rt (n + 1) r hit depth hd]
      exact h
    · by_cases hg : E.glazed (E.s hit).m = true
      · by_cases hm : E.hits (calculate_hit E rt (reflection_ray E r hit)) = 0
        · rw [shader_reflection_misses E rt n r hit depth hd hg hm] at h
          rw [shader_reflection_misses E rt (n + 1) r hit depth hd hg hm]
          exact h
        · rw [shader_reflection_hits E rt n r hit depth hd hg hm] at h
          rw [shader_reflection_hits E rt (n + 1) r hit depth hd hg hm]
          cases hsub : shader E rt n (reflection_ray E r hit)
              (calculate_hit E rt (reflection_ray E r hit)) (wrap32 (depth + 1)) with
          | none => rw [hsub] at h; simp at h
          | some sub =>
            rw [hsub] at h
            rw [ih _ _ _ sub hsub]
            exact h
      · have hg0 : E.glazed (E.s hit).m = false := by simpa using hg
        rw [shader_not_glazed E rt n r hit depth hd hg0] at h
        rw [shader_not_glazed E rt (n + 1) r hit depth hd hg0]
        exact h

theorem shader_fuel_mono (E : engine F Vec K B Ray Hit Mat PL AL Cam)
    (rt : ray_tracer B Ray Hit Mat PL AL Cam) (fuel fuel2 : Nat) (hle : fuel ≤ fuel2)
    (r : Ray) (hit : Hit) (depth : Int) (res : shader_result Vec)
    (h : shader E rt fuel r hit depth = some res) : shader E rt fuel2 r hit depth = some res := by
  induction hle with
  | refl => exact h
  | step _ ih => exact shader_fuel_succ E rt _ r hit depth res ih

/-- With `bounce_count` below the largest `int`, a call at a depth in the
range of `int` returns once the bound exceeds `bounce_count + 1 - depth`, after
at most that many recursive calls. -/
theorem shader_returns_within (E : engine F Vec K B Ray Hit Mat PL AL Cam)
    (rt : ray_tracer B Ray Hit Mat PL AL Cam) (hb : rt.bounce_count < 2147483647) (fuel : Nat) :
    ∀ (r : Ray) (hit : Hit) (depth : Int), int_range depth →
      (rt.bounce_count + 1 - depth).toNat < fuel →
      ∃ res, shader E rt fuel r hit depth = some res ∧
        res.calls ≤ (rt.bounce_count + 1 - depth).toNat ∧
        res.reflection_rays ≤ (rt.bounce_count + 1 - depth).toNat := by
  induction fuel with
  | zero => intro r hit depth _ h; exact absurd h (Nat.not_lt_zero _)
  | succ n ih =>
    intro r hit depth hr hlt
    by_cases hd : depth > rt.bounce_count
    · exact ⟨_, shader_above_limit E rt n r hit depth hd, Nat.zero_le _, Nat.zero_le _⟩
    · have hd2 : depth ≤ rt.bounce_count := not_lt.mp hd
      have hr2 : int_range (depth + 1) := by
        unfold int_range at hr ⊢
        omega
      have hw : wrap32 (depth + 1) = depth + 1 := wrap32_of_range _ hr2
      by_cases hg : E.glazed (E.s hit).m = true
      · by_cases hm : E.hits (calculate_hit E rt (reflection_ray E r hit)) = 0
        · refine ⟨_, shader_reflection_misses E rt n r hit depth hd hg hm, Nat.zero_le _, ?_⟩
          show 1 ≤ (rt.bounce_count + 1 - depth).toNat
          omega
        · obtain ⟨sub, hsub, hc, hq⟩ := ih (reflection_ray E r hit)
            (calculate_hit E rt (reflection_ray E r hit)) (depth + 1) hr2 (by omega)
          rw [shader_reflection_hits E rt n r hit depth hd hg hm, hw, hsub]
          refine ⟨_, rfl, ?_, ?_⟩
          · show sub.calls + 1 ≤ (rt.bounce_count + 1 - depth).toNat
            omega
          · show sub.reflection_rays + 1 ≤ (rt.bounce_count + 1 - depth).toNat
            omega
      · have hg0 : E.glazed (E.s hit).m = false := by simpa using hg
        exact ⟨_, shader_not_glazed E rt n r hit depth hd hg0, Nat.zero_le _, Nat.zero_le _⟩

/-- The concrete scene of one glazed surface that every ray hits, with
`bounce_count` the largest `int`: no bound on the nesting is enough. -/
theorem toy_mirror_never_returns (fuel : Nat) :
    ∀ (r : Int) (depth : Int), int_range depth →
      shader toy_engine (toy_tracer [toy_surface true 5 1] 2147483647 1 1) fuel r (1, 5, 1) depth
        = none := by
  induction fuel with
  | zero => intro r depth _; rfl
  | succ n ih =>
    intro r depth hr
    have hd : ¬ depth > (toy_tracer [toy_surface true 5 1] 2147483647 1 1).bounce_count := by
      unfold int_range at hr
      show ¬ depth > 2147483647
      omega
    have hc : ∀ q : Int, calculate_hit toy_engine
        (toy_tracer [toy_surface true 5 1] 2147483647 1 1) q = (1, 5, 1) := by
      intro q
      rfl
    rw [shader_reflection_hits toy_engine _ n r (1, 5, 1) depth hd (by rfl)
      (by rw [hc]; decide), hc, ih _ _ (wrap32_range _)]
    rfl

end shader_lemmas


section shader_claims

variable {F Vec K B Ray Hit Mat PL AL Cam : Type} [LinearOrder F]

/-- C2 (amended): for `0 <= N < 2^31 - 1` and `bounce_count = N`, a top-level
call of `shader` at depth 0 returns after at most `N + 1` recursive calls, in
every scene; with `bounce_count = 0` the colour is the direct-lighting sum
plus, when the hit material is glazed and the reflection ray hits, `k_s` times
the direct-lighting sum at the reflection hit. -/
theorem shader_recursion_bound (E : engine F Vec K B Ray Hit Mat PL AL Cam)
    (rt : ray_tracer B Ray Hit Mat PL AL Cam) (r : Ray) (hit : Hit) (N : Int)
    (hN0 : 0 ≤ N) (hN : N < 2147483647) (hbc : rt.bounce_count = N)
    (fuel : Nat) (hfuel : N.toNat + 1 < fuel) :
    ∃ res, shader E rt fuel r hit 0 = some res ∧ res.calls ≤ N.toNat + 1 ∧
      (N = 0 → res.calls ≤ 1 ∧ res.color =
        if E.glazed (E.s hit).m = true ∧
            E.hits (calculate_hit E rt (reflection_ray E r hit)) ≠ 0 then
          E.vadd (direct_lighting E rt r hit)
            (E.vmulk (direct_lighting E rt (reflection_ray E r hit)
              (calculate_hit E rt (reflection_ray E r hit))) (E.k_s (E.s hit).m))
        else direct_lighting E rt r hit) := by
  have hr0 : int_range 0 := by unfold int_range; omega
  obtain ⟨res, hres, hc, _⟩ := shader_returns_within E rt (by rw [hbc]; exact hN) fuel r hit 0 hr0
    (by rw [hbc]; omega)
  refine ⟨res, hres, by rw [hbc] at hc; omega, fun h0 => ?_⟩
  refine ⟨by rw [hbc, h0] at hc; simpa using hc, ?_⟩
  obtain ⟨n, rfl⟩ : ∃ n, fuel = n + 2 := ⟨fuel - 2, by omega⟩
  have hd : ¬ (0 : Int) > rt.bounce_count := by rw [hbc, h0]; omega
  by_cases hg : E.glazed (E.s hit).m = true
  · by_cases hm : E.hits (calculate_hit E rt (reflection_ray E r hit)) = 0
    · rw [shader_reflection_misses E rt (n + 1) r hit 0 hd hg hm] at hres
      cases hres
      simp [hg, hm, accumulate_lights_eq]
    · have hd1 : wrap32 (0 + 1) > rt.bounce_count := by rw [hbc, h0]; decide
      rw [shader_reflection_hits E rt (n + 1) r hit 0 hd hg hm,
        shader_above_limit E rt n _ _ _ hd1] at hres
      cases hres
      simp [hg, hm, accumulate_lights_eq]
  · have hg0 : E.glazed (E.s hit).m = false := by simpa using hg
    rw [shader_not_glazed E rt (n + 1) r hit 0 hd hg0] at hres
    cases hres
    simp [hg0, accumulate_lights_eq]

/-- Witness of C2 (amended): `bounce_count = 0` on a glazed surface whose
reflection ray hits. -/
theorem shader_recursion_bound_witness :
    (0 : Int) ≤ 0 ∧ (0 : Int) < 2147483647 ∧
    ∃ res, shader toy_engine (toy_tracer [toy_surface true 5 1] 0 1 1) 2 0 (1, 5, 1) 0 = some res ∧
      res.calls ≤ (0 : Int).toNat + 1 ∧
      ((0 : Int) = 0 → res.calls ≤ 1 ∧ res.color =
        if toy_engine.glazed (toy_engine.s (1, 5, 1)).m = true ∧
            toy_engine.hits (calculate_hit toy_engine (toy_tracer [toy_surface true 5 1] 0 1 1)
              (reflection_ray toy_engine 0 (1, 5, 1))) ≠ 0 then
          toy_engine.vadd
            (direct_lighting toy_engine (toy_tracer [toy_surface true 5 1] 0 1 1) 0 (1, 5, 1))
            (toy_engine.vmulk
              (direct_lighting toy_engine (toy_tracer [toy_surface true 5 1] 0 1 1)
                (reflection_ray toy_engine 0 (1, 5, 1))
                (calculate_hit toy_engine (toy_tracer [toy_surface true 5 1] 0 1 1)
                  (reflection_ray toy_engine 0 (1, 5, 1))))
              (toy_engine.k_s (toy_engine.s (1, 5, 1)).m))
        else direct_lighting toy_engine (toy_tracer [toy_surface true 5 1] 0 1 1) 0 (1, 5, 1)) :=
  ⟨by decide, by decide,
    shader_recursion_bound toy_engine (toy_tracer [toy_surface true 5 1] 0 1 1) 0 (1, 5, 1) 0
      (by decide) (by decide) rfl 2 (by decide)⟩

/-- Counterexample to C2: with `bounce_count = 0`, on a glazed surface whose
reflection ray hits, the call at depth 0 makes one recursive call and returns
`2`, while the direct-lighting sum is `1`. -/
theorem shader_bounce_zero_reflects :
    shader toy_engine (toy_tracer [toy_surface true 5 1] 0 1 1) 2 0 (1, 5, 1) 0
      = some ⟨2, 1, 1, 1⟩ ∧
    direct_lighting toy_engine (toy_tracer [toy_surface true 5 1] 0 1 1) 0 (1, 5, 1) = 1 := by
  decide

/-- C3 (amended): for every `bounce_count` below the largest `int`, every
starting depth in the range of `int` and every scene, `shader` returns: a
nesting of `bounce_count + 2 - depth` calls is enough, since `depth` grows by
one per level and a call with `depth > bounce_count` does not recurse. -/
theorem shader_terminates (E : engine F Vec K B Ray Hit Mat PL AL Cam)
    (rt : ray_tracer B Ray Hit Mat PL AL Cam) (r : Ray) (hit : Hit) (depth : Int)
    (hdepth : int_range depth) (hb : rt.bounce_count < 2147483647) :
    ∃ res, ∀ fuel, (rt.bounce_count + 1 - depth).toNat < fuel →
      shader E rt fuel r hit depth = some res := by
  obtain ⟨res, hres, _, _⟩ := shader_returns_within E rt hb
    ((rt.bounce_count + 1 - depth).toNat + 1) r hit depth hdepth (Nat.lt_succ_self _)
  exact ⟨res, fun fuel hf => shader_fuel_mono E rt _ fuel hf r hit depth res hres⟩

/-- Witness of C3 (amended): negative `bounce_count`, glazed scene. -/
theorem shader_terminates_witness :
    int_range 0 ∧
    (toy_tracer [toy_surface true 5 1] (-3) 1 1).bounce_count < 2147483647 ∧
    ∃ res, ∀ fuel,
      ((toy_tracer [toy_surface true 5 1] (-3) 1 1).bounce_count + 1 - 0).toNat < fuel →
      shader toy_engine (toy_tracer [toy_surface true 5 1] (-3) 1 1) fuel 0 (1, 5, 1) 0
        = some res :=
  ⟨by unfold int_range; omega, by decide,
    shader_terminates toy_engine (toy_tracer [toy_surface true 5 1] (-3) 1 1) 0 (1, 5, 1) 0
      (by unfold int_range; omega) (by decide)⟩

/-- Counterexample to C3: with `bounce_count = 2147483647` the test
`depth > bounce_count` never holds; on one glazed surface that every ray hits,
the call at depth 0 does not return within any bound on the nesting. -/
theorem shader_diverges_at_int_max :
    ¬ ∃ fuel res,
      shader toy_engine (toy_tracer [toy_surface true 5 1] 2147483647 1 1) fuel 0 (1, 5, 1) 0
        = some res := by
  rintro ⟨fuel, res, h⟩
  rw [toy_mirror_never_returns fuel 0 0 (by unfold int_range; omega)] at h
  exact Option.noConfusion h

/-- C6: on a hit whose material has `glazed == false`, for every depth and
every `bounce_count`, `shader` hands no reflection ray to `calculate_hit`,
makes no recursive call, and returns the direct-lighting sum. -/
theorem shader_non_glazed_is_direct (E : engine F Vec K B Ray Hit Mat PL AL Cam)
    (rt : ray_tracer B Ray Hit Mat PL AL Cam) (r : Ray) (hit : Hit) (depth : Int) (fuel : Nat)
    (hg : E.glazed (E.s hit).m = false) :
    ∃ res, shader E rt (fuel + 1) r hit depth = some res ∧
      res.reflection_rays = 0 ∧ res.calls = 0 ∧ res.color = direct_lighting E rt r hit := by
  by_cases hd : depth > rt.bounce_count
  · exact ⟨_, shader_above_limit E rt fuel r hit depth hd, rfl, rfl, accumulate_lights_eq E rt r hit⟩
  · exact ⟨_, shader_not_glazed E rt fuel r hit depth hd hg, rfl, rfl,
      accumulate_lights_eq E rt r hit⟩

/-- Witness of C6: a hit on material `2`, which is not glazed. -/
theorem shader_non_glazed_is_direct_witness :
    toy_engine.glazed (toy_engine.s (1, 3, 2)).m = false ∧
    ∃ res, shader toy_engine (toy_tracer [toy_surface true 5 1, toy_surface true 3 2] 4 1 1)
        (0 + 1) 0 (1, 3, 2) 0 = some res ∧
      res.reflection_rays = 0 ∧ res.calls = 0 ∧
      res.color = direct_lighting toy_engine
        (toy_tracer [toy_surface true 5 1, toy_surface true 3 2] 4 1 1) 0 (1, 3, 2) :=
  ⟨by decide,
    shader_non_glazed_is_direct toy_engine
      (toy_tracer [toy_surface true 5 1, toy_surface true 3 2] 4 1 1) 0 (1, 3, 2) 0 0
      (by decide)⟩

end shader_claims


section shader_claims2

variable {F Vec K B Ray Hit Mat PL AL Cam : Type} [LinearOrder F]

/-- C7: with `direct` the direct-lighting sum over the visible lights, a call
of `shader` at `depth > bounce_count` returns `direct`; otherwise, on a glazed
material whose reflection ray hits, it returns `direct + k_s * c` where `c` is
what `shader` returns on the reflection ray and its hit at `depth + 1` (the
`int` sum) and `k_s` belongs to the material of the surface first hit; on a
hit whose reflection ray hits nothing it returns `direct`.  With
`bounce_count` below the largest `int` the `int` sum is the exact one and the
call returns a colour once the nesting bound exceeds
`bounce_count + 1 - depth`. -/
theorem shader_recursive_definition (E : engine F Vec K B Ray Hit Mat PL AL Cam)
    (rt : ray_tracer B Ray Hit Mat PL AL Cam) (r : Ray) (hit : Hit) (depth : Int) (fuel : Nat) :
    (depth > rt.bounce_count →
      (shader E rt (fuel + 1) r hit depth).map (fun res => res.color)
        = some (direct_lighting E rt r hit)) ∧
    (¬ depth > rt.bounce_count → E.glazed (E.s hit).m = true →
      E.hits (calculate_hit E rt (reflection_ray E r hit)) ≠ 0 →
      (shader E rt (fuel + 1) r hit depth).map (fun res => res.color)
        = (shader E rt fuel (reflection_ray E r hit)
            (calculate_hit E rt (reflection_ray E r hit)) (wrap32 (depth + 1))).map
          (fun sub => E.vadd (direct_lighting E rt r hit)
            (E.vmulk sub.color (E.k_s (E.s hit).m)))) ∧
    (¬ depth > rt.bounce_count →
      E.hits (calculate_hit E rt (reflection_ray E r hit)) = 0 →
      (shader E rt (fuel + 1) r hit depth).map (fun res => res.color)
        = some (direct_lighting E rt r hit)) ∧
    (rt.bounce_count < 2147483647 → int_range depth →
      (¬ depth > rt.bounce_count → wrap32 (depth + 1) = depth + 1) ∧
      ((rt.bounce_count + 1 - depth).toNat < fuel + 1 →
        ∃ c, (shader E rt (fuel + 1) r hit depth).map (fun res => res.color) = some c)) := by
  refine ⟨fun hd => ?_, fun hd hg hm => ?_, fun hd hm => ?_,
    fun hb hr => ⟨fun hd => ?_, fun hf => ?_⟩⟩
  rotate_left 3
  · unfold int_range at hr
    exact wrap32_of_range _ (by unfold int_range; omega)
  · obtain ⟨res, hres, _, _⟩ := shader_returns_within E rt hb (fuel + 1) r hit depth hr hf
    exact ⟨res.color, by rw [hres]; rfl⟩
  · rw [shader_above_limit E rt fuel r hit depth hd, accumulate_lights_eq]
    rfl
  · rw [shader_reflection_hits E rt fuel r hit depth hd hg hm, accumulate_lights_eq,
      Option.map_map]
    rfl
  · by_cases hg : E.glazed (E.s hit).m = true
    · rw [shader_reflection_misses E rt fuel r hit depth hd hg hm, accumulate_lights_eq]
      rfl
    · have hg0 : E.glazed (E.s hit).m = false := by simpa using hg
      rw [shader_not_glazed E rt fuel r hit depth hd hg0, accumulate_lights_eq]
      rfl

/-- Witness of C7: the three cases on the concrete instance with
`bounce_count = 1`: depth 2 on a glazed hit, depth 0 on a glazed hit whose
reflection ray hits, depth 0 on a glazed hit in a scene no ray hits. -/
theorem shader_recursive_definition_witness :
    ((2 : Int) > (toy_tracer [toy_surface true 5 1] 1 1 1).bounce_count ∧
      (shader toy_engine (toy_tracer [toy_surface true 5 1] 1 1 1) (2 + 1) 0 (1, 5, 1) 2).map
        (fun res => res.color) = some 1) ∧
    ((¬ (0 : Int) > (toy_tracer [toy_surface true 5 1] 1 1 1).bounce_count ∧
      toy_engine.glazed (toy_engine.s (1, 5, 1)).m = true ∧
      toy_engine.hits (calculate_hit toy_engine (toy_tracer [toy_surface true 5 1] 1 1 1)
        (reflection_ray toy_engine 0 (1, 5, 1))) ≠ 0) ∧
      (shader toy_engine (toy_tracer [toy_surface true 5 1] 1 1 1) (2 + 1) 0 (1, 5, 1) 0).map
        (fun res => res.color) = some 3) ∧
    ((¬ (0 : Int) > (toy_tracer [toy_missed 1] 1 1 1).bounce_count ∧
      toy_engine.hits (calculate_hit toy_engine (toy_tracer [toy_missed 1] 1 1 1)
        (reflection_ray toy_engine 0 (1, 5, 1))) = 0) ∧
      (shader toy_engine (toy_tracer [toy_missed 1] 1 1 1) (2 + 1) 0 (1, 5, 1) 0).map
        (fun res => res.color) = some 1) ∧
    (((toy_tracer [toy_surface true 5 1] 1 1 1).bounce_count < 2147483647 ∧ int_range 0 ∧
      ((toy_tracer [toy_surface true 5 1] 1 1 1).bounce_count + 1 - 0).toNat < 2 + 1) ∧
      wrap32 (0 + 1) = 0 + 1 ∧
      ∃ c, (shader toy_engine (toy_tracer [toy_surface true 5 1] 1 1 1) (2 + 1) 0
        (1, 5, 1) 0).map (fun res => res.color) = some c) :=
  ⟨⟨by decide,
      ((shader_recursive_definition toy_engine (toy_tracer [toy_surface true 5 1] 1 1 1)
        0 (1, 5, 1) 2 2).1 (by decide)).trans (by decide)⟩,
    ⟨⟨by decide, by decide, by decide⟩,
      ((shader_recursive_definition toy_engine (toy_tracer [toy_surface true 5 1] 1 1 1)
        0 (1, 5, 1) 0 2).2.1 (by decide) (by decide) (by decide)).trans (by decide)⟩,
    ⟨⟨by decide, by decide⟩,
      ((shader_recursive_definition toy_engine (toy_tracer [toy_missed 1] 1 1 1)
        0 (1, 5, 1) 0 2).2.2.1 (by decide) (by decide)).trans (by decide)⟩,
    ⟨⟨by decide, by unfold int_range; omega, by decide⟩,
      ((shader_recursive_definition toy_engine (toy_tracer [toy_surface true 5 1] 1 1 1)
        0 (1, 5, 1) 0 2).2.2.2 (by decide) (by unfold int_range; omega)).1 (by decide),
      ((shader_recursive_definition toy_engine (toy_tracer [toy_surface true 5 1] 1 1 1)
        0 (1, 5, 1) 0 2).2.2.2 (by decide) (by unfold int_range; omega)).2 (by decide)⟩⟩

/-- C8 (amended): with zero point lights and exactly one visible ambient
light, of intensity `I`, whose `illuminate(r, hit)` is `material.k_a * I` as
the specification says, for every ray, depth and `bounce_count`, and every hit
whose material is not glazed, or with `depth > bounce_count`, or whose
reflection ray hits nothing: `shader` returns `material.k_a * I` added to the
zero colour, with no other term; when adding to the zero colour changes
nothing, this is `material.k_a * I` itself. -/
theorem shader_ambient_only {KA I : Type} (E : engine F Vec K B Ray Hit Mat PL AL Cam)
    (rt : ray_tracer B Ray Hit Mat PL AL Cam)
    (k_a : Mat → KA) (intensity : AL → I) (mul : KA → I → Vec)
    (l : AL) (r : Ray) (hit : Hit) (depth : Int) (fuel : Nat)
    (hpl : rt.point_lights = [])
    (hal : rt.ambient_lights.filter (fun a => E.al_visible a) = [l])
    (hspec : ∀ q h, E.al_illuminate l q h = ambient_illuminate k_a intensity mul E l h)
    (hcase : E.glazed (E.s hit).m = false ∨ depth > rt.bounce_count ∨
      E.hits (calculate_hit E rt (reflection_ray E r hit)) = 0) :
    (shader E rt (fuel + 1) r hit depth).map (fun res => res.color)
      = some (E.vadd E.vzero (mul (k_a (E.s hit).m) (intensity l))) ∧
    ((∀ v, E.vadd E.vzero v = v) →
      (shader E rt (fuel + 1) r hit depth).map (fun res => res.color)
        = some (mul (k_a (E.s hit).m) (intensity l))) := by
  have hdirect : accumulate_lights E rt r hit
      = E.vadd E.vzero (mul (k_a (E.s hit).m) (intensity l)) := by
    rw [accumulate_lights_eq]
    unfold direct_lighting
    rw [hpl, hal]
    simp only [List.filter_nil, List.map_nil, List.nil_append, List.map_cons, List.foldl_cons,
      List.foldl_nil]
    rw [hspec]
    rfl
  have hmain : (shader E rt (fuel + 1) r hit depth).map (fun res => res.color)
      = some (E.vadd E.vzero (mul (k_a (E.s hit).m) (intensity l))) := by
    by_cases hd : depth > rt.bounce_count
    · rw [shader_above_limit E rt fuel r hit depth hd, hdirect]
      rfl
    · by_cases hg : E.glazed (E.s hit).m = true
      · rcases hcase with h | h | h
        · rw [hg] at h
          exact absurd h (by decide)
        · exact absurd h hd
        · rw [shader_reflection_misses E rt fuel r hit depth hd hg h, hdirect]
          rfl
      · have hg0 : E.glazed (E.s hit).m = false := by simpa using hg
        rw [shader_not_glazed E rt fuel r hit depth hd hg0, hdirect]
        rfl
  exact ⟨hmain, fun hz => by rw [hmain, hz]⟩

/-- Witness of C8 (amended): an invisible ambient light and a visible one of
intensity `2`, `k_a = 3`, a hit on the material that is not glazed: the colour
is `3 * 2`. -/
theorem shader_ambient_only_witness :
    ((toy_tracer_ambient [toy_surface true 5 1, toy_surface true 3 2] 1).point_lights = [] ∧
      (toy_tracer_ambient [toy_surface true 5 1, toy_surface true 3 2] 1).ambient_lights.filter
        (fun a => toy_engine.al_visible a) = [(true, 6)] ∧
      (∀ q h, toy_engine.al_illuminate (true, 6) q h
        = ambient_illuminate (fun _ => (3 : Int)) (fun _ => (2 : Int)) (fun a b => a * b)
            toy_engine (true, 6) h) ∧
      toy_engine.glazed (toy_engine.s (1, 3, 2)).m = false ∧
      ∀ v, toy_engine.vadd toy_engine.vzero v = v) ∧
    (shader toy_engine (toy_tracer_ambient [toy_surface true 5 1, toy_surface true 3 2] 1)
        (0 + 1) 0 (1, 3, 2) 0).map (fun res => res.color)
      = some ((3 : Int) * 2) :=
  ⟨⟨rfl, rfl, fun _ _ => rfl, by decide, fun v => Int.zero_add v⟩,
    (shader_ambient_only toy_engine
      (toy_tracer_ambient [toy_surface true 5 1, toy_surface true 3 2] 1)
      (fun _ => (3 : Int)) (fun _ => (2 : Int)) (fun a b => a * b) (true, 6) 0 (1, 3, 2) 0 0
      rfl rfl (fun _ _ => rfl) (Or.inl (by decide))).2 (fun v => Int.zero_add v)⟩

/-- Counterexample to C8: no point light, one visible ambient light of
intensity `1` whose `illuminate` is `k_a * I = 1 * 1`, `bounce_count = 1`, a
hit at depth 0 on a glazed surface whose reflection ray hits: `shader` returns
`3`, not `1`. -/
theorem shader_ambient_only_glazed_adds_reflection :
    (toy_tracer [toy_surface true 5 1] 1 1 1).point_lights = [] ∧
    (toy_tracer [toy_surface true 5 1] 1 1 1).ambient_lights = [(true, 1)] ∧
    toy_engine.al_visible (true, 1) = true ∧
    toy_engine.al_illuminate (true, 1) 0 (1, 5, 1)
      = ambient_illuminate (fun _ => (1 : Int)) (fun _ => (1 : Int)) (fun a b => a * b)
          toy_engine (true, 1) (1, 5, 1) ∧
    ambient_illuminate (fun _ => (1 : Int)) (fun _ => (1 : Int)) (fun a b => a * b)
      toy_engine (true, 1) (1, 5, 1) = 1 ∧
    (shader toy_engine (toy_tracer [toy_surface true 5 1] 1 1 1) 3 0 (1, 5, 1) 0).map
      (fun res => res.color) = some 3 := by
  decide

end shader_claims2


section scene_lemmas

variable {F Vec K B Ray Hit Mat PL AL Cam : Type}

/-! ## Constructor and add operations -/

theorem single_material_invariant (E : engine F Vec K B Ray Hit Mat PL AL Cam)
    (rt : ray_tracer B Ray Hit Mat PL AL Cam) (hnew : E.new_material ≠ E.null_material)
    (h : single_material E rt) : material_invariant E rt := by
  obtain ⟨hm, hs⟩ := h
  refine ⟨by rw [hm]; exact List.cons_ne_nil _ _, fun obj hobj => ?_⟩
  rw [hs obj hobj, hm]
  exact ⟨hnew, 0, rfl⟩

theorem ray_tracer_new_single_material (E : engine F Vec K B Ray Hit Mat PL AL Cam) :
    ∃ rt, ray_tracer_new E = some rt ∧ single_material E rt := by
  refine ⟨_, rfl, rfl, ?_⟩
  intro obj hobj
  change obj ∈ [_, _, _, _, _, _] at hobj
  simp only [List.mem_cons, List.mem_singleton, List.not_mem_nil, or_false] at hobj
  rcases hobj with rfl | rfl | rfl | rfl | rfl | rfl <;> rfl

theorem push_surface_single_material (E : engine F Vec K B Ray Hit Mat PL AL Cam)
    (rt : ray_tracer B Ray Hit Mat PL AL Cam) (obj : surface Ray Hit Mat)
    (h : single_material E rt) :
    ∃ rt2, push_surface rt obj = some rt2 ∧
      rt2.scene = rt.scene ++ [⟨obj.visible, E.new_material, obj.intersect⟩] ∧
      rt2.materials = rt.materials ∧ single_material E rt2 := by
  obtain ⟨hm, hs⟩ := h
  have h0 : rt.materials[0]? = some E.new_material := by rw [hm]; rfl
  unfold push_surface
  rw [h0]
  refine ⟨_, rfl, rfl, rfl, hm, ?_⟩
  intro o ho
  rcases List.mem_append.mp ho with ho | ho
  · exact hs o ho
  · rw [List.mem_singleton.mp ho]

theorem apply_op_single_material (E : engine F Vec K B Ray Hit Mat PL AL Cam)
    (rt : ray_tracer B Ray Hit Mat PL AL Cam) (o : add_op) (h : single_material E rt) :
    ∃ rt2, apply_op E o rt = some rt2 ∧ (∃ obj, rt2.scene = rt.scene ++ [obj]) ∧
      rt2.materials = rt.materials ∧ single_material E rt2 := by
  cases o with
  | sphere =>
    obtain ⟨rt2, h1, h2, h3, h4⟩ := push_surface_single_material E rt E.sphere_default h
    exact ⟨rt2, h1, ⟨_, h2⟩, h3, h4⟩
  | triangle =>
    obtain ⟨rt2, h1, h2, h3, h4⟩ := push_surface_single_material E rt E.triangle_default h
    exact ⟨rt2, h1, ⟨_, h2⟩, h3, h4⟩

theorem apply_ops_single_material (E : engine F Vec K B Ray Hit Mat PL AL Cam)
    (ops : List add_op) :
    ∀ rt : ray_tracer B Ray Hit Mat PL AL Cam, single_material E rt →
      ∃ rt2, apply_ops E ops rt = some rt2 ∧ single_material E rt2 ∧
        rt2.scene.length = rt.scene.length + ops.length := by
  induction ops with
  | nil => intro rt h; exact ⟨rt, rfl, h, rfl⟩
  | cons o os ih =>
    intro rt h
    obtain ⟨rt1, h1, ⟨obj, hsc⟩, _, h4⟩ := apply_op_single_material E rt o h
    obtain ⟨rt2, h5, h6, h7⟩ := ih rt1 h4
    refine ⟨rt2, by rw [apply_ops, h1]; exact h5, h6, ?_⟩
    rw [h7, hsc, List.length_append, List.length_cons, List.length_cons, List.length_nil]
    omega

end scene_lemmas

section scene_claims

variable {F Vec K B Ray Hit Mat PL AL Cam : Type}

/-- C9: the constructor succeeds, and in every state reached from it by a
sequence of `addSphere` and `addTriangle` calls `materials` is non-empty and
the member `m` of every surface of `scene` is non-null and is an entry of
`materials`; each add operation succeeds there, appends exactly one surface,
leaves the surfaces already present (with their `m`) and `materials`
unchanged, and keeps the invariant.  `new material{}` is not null. -/
theorem material_invariant_reachable (E : engine F Vec K B Ray Hit Mat PL AL Cam)
    (hnew : E.new_material ≠ E.null_material) :
    ∃ rt0, ray_tracer_new E = some rt0 ∧
      ∀ ops : List add_op, ∃ rt, apply_ops E ops rt0 = some rt ∧ material_invariant E rt ∧
        ∀ o : add_op, ∃ rt2, apply_op E o rt = some rt2 ∧
          (∃ obj, rt2.scene = rt.scene ++ [obj]) ∧ rt2.materials = rt.materials ∧
          material_invariant E rt2 := by
  obtain ⟨rt0, h0, hs0⟩ := ray_tracer_new_single_material E
  refine ⟨rt0, h0, fun ops => ?_⟩
  obtain ⟨rt, h1, hs1, _⟩ := apply_ops_single_material E ops rt0 hs0
  refine ⟨rt, h1, single_material_invariant E rt hnew hs1, fun o => ?_⟩
  obtain ⟨rt2, h2, h3, h4, hs2⟩ := apply_op_single_material E rt o hs1
  exact ⟨rt2, h2, h3, h4, single_material_invariant E rt2 hnew hs2⟩

/-- Witness of C9: the concrete instance, whose `new material{}` is `1` and
whose null pointer is `0`. -/
theorem material_invariant_reachable_witness :
    toy_engine.new_material ≠ toy_engine.null_material ∧
    ∃ rt0, ray_tracer_new toy_engine = some rt0 ∧
      ∀ ops : List add_op, ∃ rt, apply_ops toy_engine ops rt0 = some rt ∧
        material_invariant toy_engine rt ∧
        ∀ o : add_op, ∃ rt2, apply_op toy_engine o rt = some rt2 ∧
          (∃ obj, rt2.scene = rt.scene ++ [obj]) ∧ rt2.materials = rt.materials ∧
          material_invariant toy_engine rt2 :=
  ⟨by decide, material_invariant_reachable toy_engine (by decide)⟩

end scene_claims


section image_lemmas

variable {F Vec K B Ray Hit Mat PL AL Cam : Type}

/-! ## Lemmas on `update_image` -/

theorem store_same (image : Int → B) (a : Int) (v : B) : store image a v a = v := by
  simp [store]

theorem store_other (image : Int → B) (a x : Int) (v : B) (h : x ≠ a) :
    store image a v x = image x := by
  simp [store, h]

/-- A loop over `0 .. N-1` whose iterations all return runs to the end. -/
theorem foldlM_range_returns (f : (Int → B) → Nat → Option (Int → B)) (N : Nat)
    (hret : ∀ n, n < N → ∀ img, ∃ img2, f img n = some img2) :
    ∀ M, M ≤ N → ∀ img, ∃ img2, (List.range M).foldlM f img = some img2 := by
  intro M
  induction M with
  | zero => intro _ img; exact ⟨img, rfl⟩
  | succ M ih =>
    intro hM img
    obtain ⟨img1, h1⟩ := ih (Nat.le_of_succ_le hM) img
    obtain ⟨img2, h2⟩ := hret M hM img1
    refine ⟨img2, ?_⟩
    rw [List.range_succ, List.foldlM_append, h1]
    simp [h2]

/-- A loop over `0 .. N-1` whose iterations write disjoint blocks of the
buffer: when it runs to the end, it has left what no iteration writes, and
what each iteration establishes on its block still holds. -/
theorem foldlM_range_blocks (f : (Int → B) → Nat → Option (Int → B)) (N : Nat)
    (blk : Nat → Int → Prop) (Q : Nat → (Int → B) → Prop)
    (hdisj : ∀ n m x, n < N → m < N → blk n x → blk m x → n = m)
    (hloc : ∀ n img1 img2, (∀ x, blk n x → img2 x = img1 x) → Q n img1 → Q n img2)
    (hstep : ∀ n, n < N → ∀ img img2, f img n = some img2 →
      (∀ x, ¬ blk n x → img2 x = img x) ∧ Q n img2) :
    ∀ M, M ≤ N → ∀ img img2, (List.range M).foldlM f img = some img2 →
      (∀ x, (∀ n, n < M → ¬ blk n x) → img2 x = img x) ∧ ∀ n, n < M → Q n img2 := by
  intro M
  induction M with
  | zero =>
    intro _ img img2 h
    have he : img = img2 := by simpa using h
    subst he
    exact ⟨fun _ _ => rfl, fun n hn => absurd hn (Nat.not_lt_zero n)⟩
  | succ M ih =>
    intro hM img img2 h
    rw [List.range_succ, List.foldlM_append] at h
    cases h1 : (List.range M).foldlM f img with
    | none => rw [h1] at h; simp at h
    | some img1 =>
      rw [h1] at h
      have h2 : f img1 M = some img2 := by simpa using h
      obtain ⟨hframe1, hq1⟩ := ih (Nat.le_of_succ_le hM) img img1 h1
      obtain ⟨hframe2, hq2⟩ := hstep M hM img1 img2 h2
      refine ⟨?_, ?_⟩
      · intro x hx
        rw [hframe2 x (hx M (Nat.lt_succ_self M)),
          hframe1 x (fun n hn => hx n (Nat.lt_succ_of_lt hn))]
      · intro n hn
        rcases Nat.lt_succ_iff_lt_or_eq.mp hn with hlt | rfl
        · refine hloc n img1 img2 (fun x hx => hframe2 x (fun hMx => ?_)) (hq1 n hlt)
          have := hdisj n M x (Nat.lt_of_lt_of_le hlt (Nat.le_of_succ_le hM)) hM hx hMx
          omega
        · exact hq2

end image_lemmas


section image_lemmas2

variable {F Vec K B Ray Hit Mat PL AL Cam : Type} [LinearOrder F]

theorem pixel_index_bounds (W H i j : Int) (hi0 : 0 ≤ i) (hi : i < H) (hj0 : 0 ≤ j) (hj : j < W)
    (hsize : W * H * 3 ≤ 2147483647) :
    0 ≤ i * W ∧ (i * W + j) * 3 + 2 ≤ 2147483647 := by
  have hW : 0 ≤ W := by omega
  have h1 : 0 ≤ i * W := Int.mul_nonneg hi0 hW
  have h2 : (i + 1) * W ≤ H * W := Int.mul_le_mul_of_nonneg_right (by omega) hW
  have h3 : (i + 1) * W = i * W + W := by ring
  have h4 : W * H = H * W := Int.mul_comm W H
  rw [h3] at h2
  rw [h4] at hsize
  exact ⟨h1, by omega⟩

/-- Under the bounds of the loops no `int` operation of the index leaves the
range, and the body writes the samples of `pixel_color` at the pixel. -/
theorem update_pixel_eq (E : engine F Vec K B Ray Hit Mat PL AL Cam)
    (rt : ray_tracer B Ray Hit Mat PL AL Cam) (fuel : Nat) (image : Int → B) (i j : Int)
    (hi0 : 0 ≤ i) (hi : i < rt.height) (hj0 : 0 ≤ j) (hj : j < rt.width)
    (hsize : rt.width * rt.height * 3 ≤ 2147483647) :
    update_pixel E rt fuel image i j =
      (pixel_color E rt fuel j i).map (fun color =>
        store (store (store image ((i * rt.width + j) * 3) (E.sample (E.chan_r color)))
          ((i * rt.width + j) * 3 + 1) (E.sample (E.chan_g color)))
          ((i * rt.width + j) * 3 + 2) (E.sample (E.chan_b color))) := by
  obtain ⟨h1, h2⟩ := pixel_index_bounds rt.width rt.height i j hi0 hi hj0 hj hsize
  have w1 : wrap32 (i * rt.width) = i * rt.width :=
    wrap32_of_range _ (by unfold int_range; omega)
  have w2 : wrap32 (i * rt.width + j) = i * rt.width + j :=
    wrap32_of_range _ (by unfold int_range; omega)
  have w3 : wrap32 ((i * rt.width + j) * 3) = (i * rt.width + j) * 3 :=
    wrap32_of_range _ (by unfold int_range; omega)
  have w4 : wrap32 ((i * rt.width + j) * 3 + 0) = (i * rt.width + j) * 3 := by
    rw [Int.add_zero, w3]
  have w5 : wrap32 ((i * rt.width + j) * 3 + 1) = (i * rt.width + j) * 3 + 1 :=
    wrap32_of_range _ (by unfold int_range; omega)
  have w6 : wrap32 ((i * rt.width + j) * 3 + 2) = (i * rt.width + j) * 3 + 2 :=
    wrap32_of_range _ (by unfold int_range; omega)
  simp only [update_pixel, pixel_color, w1, w2, w3, w4, w5, w6]
  by_cases hh : E.hits (calculate_hit E rt (E.generate_ray rt.cam j i)) ≠ 0
  · rw [if_pos hh, if_pos hh]
    cases shader E rt fuel (E.generate_ray rt.cam j i)
      (calculate_hit E rt (E.generate_ray rt.cam j i)) 0 <;> rfl
  · rw [if_neg hh, if_neg hh]
    rfl

/-- With `bounce_count` below the largest `int` and a sufficient bound on the
nesting, every pixel has a colour. -/
theorem pixel_color_some (E : engine F Vec K B Ray Hit Mat PL AL Cam)
    (rt : ray_tracer B Ray Hit Mat PL AL Cam) (fuel : Nat)
    (hb : rt.bounce_count < 2147483647) (hfuel : (rt.bounce_count + 1).toNat < fuel)
    (j i : Int) : ∃ color, pixel_color E rt fuel j i = some color := by
  unfold pixel_color
  by_cases hh : E.hits (calculate_hit E rt (E.generate_ray rt.cam j i)) ≠ 0
  · obtain ⟨res, hres, _, _⟩ := shader_returns_within E rt hb fuel (E.generate_ray rt.cam j i)
      (calculate_hit E rt (E.generate_ray rt.cam j i)) 0 (by unfold int_range; omega)
      (by simpa using hfuel)
    exact ⟨E.clamp01 res.color, by rw [if_pos hh, hres]; rfl⟩
  · exact ⟨E.clamp01 E.vzero, by rw [if_neg hh]⟩

/-- The body of the inner loop returns when `bounce_count` is below the
largest `int` and the bound on the nesting is sufficient. -/
theorem update_pixel_returns (E : engine F Vec K B Ray Hit Mat PL AL Cam)
    (rt : ray_tracer B Ray Hit Mat PL AL Cam) (fuel : Nat)
    (hb : rt.bounce_count < 2147483647) (hfuel : (rt.bounce_count + 1).toNat < fuel)
    (hsize : rt.width * rt.height * 3 ≤ 2147483647)
    (image : Int → B) (i j : Int)
    (hi0 : 0 ≤ i) (hi : i < rt.height) (hj0 : 0 ≤ j) (hj : j < rt.width) :
    ∃ img2, update_pixel E rt fuel image i j = some img2 := by
  obtain ⟨color, hc⟩ := pixel_color_some E rt fuel hb hfuel j i
  rw [update_pixel_eq E rt fuel image i j hi0 hi hj0 hj hsize, hc]
  exact ⟨_, rfl⟩

/-- The body of the inner loop, when it returns, has written only the block
of its pixel and left the samples of `pixel_color` there. -/
theorem update_pixel_step (E : engine F Vec K B Ray Hit Mat PL AL Cam)
    (rt : ray_tracer B Ray Hit Mat PL AL Cam) (fuel : Nat)
    (hsize : rt.width * rt.height * 3 ≤ 2147483647)
    (image : Int → B) (i j : Int)
    (hi0 : 0 ≤ i) (hi : i < rt.height) (hj0 : 0 ≤ j) (hj : j < rt.width)
    (img2 : Int → B) (h : update_pixel E rt fuel image i j = some img2) :
    (∀ x, ¬ pixel_block rt.width i j x → img2 x = image x) ∧
      pixel_stored E rt fuel img2 i j := by
  rw [update_pixel_eq E rt fuel image i j hi0 hi hj0 hj hsize] at h
  cases hc : pixel_color E rt fuel j i with
  | none => rw [hc] at h; simp at h
  | some color =>
    rw [hc] at h
    simp only [Option.map_some', Option.some.injEq] at h
    subst h
    refine ⟨?_, color, hc, ?_, ?_, ?_⟩
    · intro x hx
      unfold pixel_block at hx
      simp only [not_or] at hx
      obtain ⟨hx1, hx2, hx3⟩ := hx
      rw [store_other _ _ _ _ (by omega), store_other _ _ _ _ (by omega),
        store_other _ _ _ _ (by omega)]
    · rw [store_other _ _ _ _ (by omega), store_other _ _ _ _ (by omega), store_same]
    · rw [store_other _ _ _ _ (by omega), store_same]
    · rw [store_same]

theorem pixel_stored_local (E : engine F Vec K B Ray Hit Mat PL AL Cam)
    (rt : ray_tracer B Ray Hit Mat PL AL Cam) (fuel : Nat) (img1 img2 : Int → B) (i j : Int)
    (h : ∀ x, pixel_block rt.width i j x → img2 x = img1 x)
    (hq : pixel_stored E rt fuel img1 i j) : pixel_stored E rt fuel img2 i j := by
  obtain ⟨color, hc, h0, h1, h2⟩ := hq
  refine ⟨color, hc, ?_, ?_, ?_⟩
  · rw [h _ (Or.inl rfl)]; exact h0
  · rw [h _ (Or.inr (Or.inl rfl))]; exact h1
  · rw [h _ (Or.inr (Or.inr rfl))]; exact h2

/-- Blocks of different pixels are disjoint. -/
theorem pixel_block_inj (W i j i2 j2 x : Int)
    (hj0 : 0 ≤ j) (hj : j < W) (hj20 : 0 ≤ j2) (hj2 : j2 < W)
    (h1 : pixel_block W i j x) (h2 : pixel_block W i2 j2 x) : i = i2 ∧ j = j2 := by
  unfold pixel_block at h1 h2
  have he : i * W + j = i2 * W + j2 := by omega
  have hW : 0 ≤ W := by omega
  have hii : i = i2 := by
    rcases lt_trichotomy i i2 with hlt | heq | hgt
    · have h3 : (i + 1) * W ≤ i2 * W := Int.mul_le_mul_of_nonneg_right (by omega) hW
      have h4 : (i + 1) * W = i * W + W := by ring
      omega
    · exact heq
    · have h3 : (i2 + 1) * W ≤ i * W := Int.mul_le_mul_of_nonneg_right (by omega) hW
      have h4 : (i2 + 1) * W = i2 * W + W := by ring
      omega
  subst hii
  exact ⟨rfl, by omega⟩

/-- The inner loop for row `i` returns when every pixel does. -/
theorem update_row_returns (E : engine F Vec K B Ray Hit Mat PL AL Cam)
    (rt : ray_tracer B Ray Hit Mat PL AL Cam) (fuel : Nat)
    (hb : rt.bounce_count < 2147483647) (hfuel : (rt.bounce_count + 1).toNat < fuel)
    (hsize : rt.width * rt.height * 3 ≤ 2147483647)
    (image : Int → B) (i : Int) (hi0 : 0 ≤ i) (hi : i < rt.height) :
    ∃ img2, update_row E rt fuel image i = some img2 := by
  unfold update_row
  refine foldlM_range_returns
    (fun image (j : Nat) => update_pixel E rt fuel image i (j : Int)) rt.width.toNat
    ?_ rt.width.toNat (le_refl _) image
  intro n hn img
  exact update_pixel_returns E rt fuel hb hfuel hsize img i n hi0 hi (by omega) (by omega)

/-- The inner loop for row `i`, when it returns, has written only the blocks
of the pixels of the row and left every pixel of the row stored. -/
theorem update_row_step (E : engine F Vec K B Ray Hit Mat PL AL Cam)
    (rt : ray_tracer B Ray Hit Mat PL AL Cam) (fuel : Nat)
    (hsize : rt.width * rt.height * 3 ≤ 2147483647)
    (image : Int → B) (i : Int) (hi0 : 0 ≤ i) (hi : i < rt.height)
    (img2 : Int → B) (h : update_row E rt fuel image i = some img2) :
    (∀ x, (∀ j : Nat, j < rt.width.toNat → ¬ pixel_block rt.width i j x) → img2 x = image x) ∧
      ∀ j : Nat, j < rt.width.toNat → pixel_stored E rt fuel img2 i j := by
  unfold update_row at h
  refine foldlM_range_blocks
    (fun image (j : Nat) => update_pixel E rt fuel image i (j : Int)) rt.width.toNat
    (fun j x => pixel_block rt.width i j x)
    (fun j img => pixel_stored E rt fuel img i j) ?_ ?_ ?_ rt.width.toNat (le_refl _) image
    img2 h
  · intro n m x hn hm h1 h2
    have := (pixel_block_inj rt.width i n i m x (by omega) (by omega) (by omega)
      (by omega) h1 h2).2
    omega
  · intro n img1 img3 h3 hq
    exact pixel_stored_local E rt fuel img1 img3 i n h3 hq
  · intro n hn img img3 h3
    exact update_pixel_step E rt fuel hsize img i n hi0 hi (by omega) (by omega) img3 h3

end image_lemmas2


section image_claims

variable {F Vec K B Ray Hit Mat PL AL Cam : Type} [LinearOrder F]

/-- `shader` reads only `scene`, the lights, `blinn_phong` and
`bounce_count` of the state. -/
theorem shader_congr (E : engine F Vec K B Ray Hit Mat PL AL Cam)
    (rt rt2 : ray_tracer B Ray Hit Mat PL AL Cam)
    (hs : rt2.scene = rt.scene) (hal : rt2.ambient_lights = rt.ambient_lights)
    (hpl : rt2.point_lights = rt.point_lights) (hbp : rt2.blinn_phong = rt.blinn_phong)
    (hbc : rt2.bounce_count = rt.bounce_count) (fuel : Nat) :
    ∀ (r : Ray) (hit : Hit) (depth : Int),
      shader E rt2 fuel r hit depth = shader E rt fuel r hit depth := by
  have hc : ∀ q, calculate_hit E rt2 q = calculate_hit E rt q := by
    intro q
    unfold calculate_hit
    rw [hs]
  have ha : ∀ q h, accumulate_lights E rt2 q h = accumulate_lights E rt q h := by
    intro q h
    unfold accumulate_lights
    rw [hs, hal, hpl, hbp]
  induction fuel with
  | zero => intro r hit depth; rfl
  | succ n ih =>
    intro r hit depth
    by_cases hd : depth > rt.bounce_count
    · rw [shader_above_limit E rt n r hit depth hd,
        shader_above_limit E rt2 n r hit depth (by rw [hbc]; exact hd), ha]
    · have hd2 : ¬ depth > rt2.bounce_count := by rw [hbc]; exact hd
      by_cases hg : E.glazed (E.s hit).m = true
      · by_cases hm : E.hits (calculate_hit E rt (reflection_ray E r hit)) = 0
        · rw [shader_reflection_misses E rt n r hit depth hd hg hm,
            shader_reflection_misses E rt2 n r hit depth hd2 hg (by rw [hc]; exact hm), ha]
        · rw [shader_reflection_hits E rt n r hit depth hd hg hm,
            shader_reflection_hits E rt2 n r hit depth hd2 hg (by rw [hc]; exact hm), ha, hc, ih]
      · have hg0 : E.glazed (E.s hit).m = false := by simpa using hg
        rw [shader_not_glazed E rt n r hit depth hd hg0,
          shader_not_glazed E rt2 n r hit depth hd2 hg0, ha]

/-- The colour of a pixel is the same in two states with the same camera,
scene, lights and settings. -/
theorem pixel_color_congr (E : engine F Vec K B Ray Hit Mat PL AL Cam)
    (rt rt2 : ray_tracer B Ray Hit Mat PL AL Cam) (fuel : Nat)
    (hcam : rt2.cam = rt.cam)
    (hs : rt2.scene = rt.scene) (hal : rt2.ambient_lights = rt.ambient_lights)
    (hpl : rt2.point_lights = rt.point_lights) (hbp : rt2.blinn_phong = rt.blinn_phong)
    (hbc : rt2.bounce_count = rt.bounce_count) (j i : Int) :
    pixel_color E rt2 fuel j i = pixel_color E rt fuel j i := by
  have hc : ∀ q, calculate_hit E rt2 q = calculate_hit E rt q := by
    intro q
    unfold calculate_hit
    rw [hs]
  unfold pixel_color
  simp only [hcam, hc, shader_congr E rt rt2 hs hal hpl hbp hbc]

/-- A pixel that has a colour under one bound on the nesting has the same
colour under every larger bound. -/
theorem pixel_color_fuel_mono (E : engine F Vec K B Ray Hit Mat PL AL Cam)
    (rt : ray_tracer B Ray Hit Mat PL AL Cam) (fuel fuel2 : Nat) (hle : fuel ≤ fuel2)
    (j i : Int) (color : Vec) (h : pixel_color E rt fuel j i = some color) :
    pixel_color E rt fuel2 j i = some color := by
  unfold pixel_color at h ⊢
  by_cases hh : E.hits (calculate_hit E rt (E.generate_ray rt.cam j i)) ≠ 0
  · rw [if_pos hh] at h ⊢
    cases hs : shader E rt fuel (E.generate_ray rt.cam j i)
        (calculate_hit E rt (E.generate_ray rt.cam j i)) 0 with
    | none => rw [hs] at h; simp at h
    | some res =>
      rw [hs] at h
      rw [shader_fuel_mono E rt fuel fuel2 hle _ _ _ res hs]
      exact h
  · rw [if_neg hh] at h ⊢
    exact h

/-- C10: when `width * height * 3` fits in an `int`: (1) if `bounce_count`
is below the largest `int`, `update_image` runs to the end; (2) whenever it
runs to the end, for every pixel `(j, i)` with `0 <= j < width` and
`0 <= i < height` the three bytes of that pixel hold the samples of the
clamped colour `shader(ray, hit, 0)` when `calculate_hit` on the camera ray of
the pixel returns `hits != 0`, and of the clamped black otherwise, `shader`
being entered at depth 0 for every pixel; (3) that colour is the same in every
state with the same camera, scene, lights and settings, whatever the buffer
held before, and under every larger bound on the nesting. -/
theorem update_image_pixels (E : engine F Vec K B Ray Hit Mat PL AL Cam)
    (rt : ray_tracer B Ray Hit Mat PL AL Cam) (fuel : Nat)
    (hsize : rt.width * rt.height * 3 ≤ 2147483647) :
    (rt.bounce_count < 2147483647 → (rt.bounce_count + 1).toNat < fuel →
      ∃ image, update_image E rt fuel = some image) ∧
    (∀ image, update_image E rt fuel = some image →
      ∀ i j : Int, 0 ≤ j → j < rt.width → 0 ≤ i → i < rt.height →
        ∃ color,
          pixel_color E rt fuel j i = some color ∧
          image ((i * rt.width + j) * 3) = E.sample (E.chan_r color) ∧
          image ((i * rt.width + j) * 3 + 1) = E.sample (E.chan_g color) ∧
          image ((i * rt.width + j) * 3 + 2) = E.sample (E.chan_b color) ∧
          (∀ fuel2, fuel ≤ fuel2 → pixel_color E rt fuel2 j i = some color) ∧
          ∀ rt2 : ray_tracer B Ray Hit Mat PL AL Cam,
            rt2.cam = rt.cam → rt2.scene = rt.scene →
            rt2.ambient_lights = rt.ambient_lights → rt2.point_lights = rt.point_lights →
            rt2.blinn_phong = rt.blinn_phong → rt2.bounce_count = rt.bounce_count →
            pixel_color E rt2 fuel j i = some color) := by
  refine ⟨fun hb hfuel => ?_, fun image himg i j hj0 hj hi0 hi => ?_⟩
  · unfold update_image
    refine foldlM_range_returns
      (fun image (i : Nat) => update_row E rt fuel image (i : Int)) rt.height.toNat
      ?_ rt.height.toNat (le_refl _) rt.image
    intro n hn img
    exact update_row_returns E rt fuel hb hfuel hsize img n (by omega) (by omega)
  · unfold update_image at himg
    obtain ⟨_, hq⟩ := foldlM_range_blocks
      (fun image (i : Nat) => update_row E rt fuel image (i : Int)) rt.height.toNat
      (fun i x => ∃ j : Nat, j < rt.width.toNat ∧ pixel_block rt.width i j x)
      (fun i img => ∀ j : Nat, j < rt.width.toNat → pixel_stored E rt fuel img i j)
      (by
        intro n m x _ _ h1 h2
        obtain ⟨j1, hj1, hb1⟩ := h1
        obtain ⟨j2, hj2, hb2⟩ := h2
        have := (pixel_block_inj rt.width n j1 m j2 x (by omega) (by omega) (by omega)
          (by omega) hb1 hb2).1
        omega)
      (by
        intro n img1 img2 h hq j hj
        exact pixel_stored_local E rt fuel img1 img2 n j (fun x hx => h x ⟨j, hj, hx⟩)
          (hq j hj))
      (by
        intro n hn img img2 h
        obtain ⟨h2, h3⟩ := update_row_step E rt fuel hsize img n (by omega) (by omega) img2 h
        exact ⟨fun x hx => h2 x (fun j hj hbl => hx ⟨j, hj, hbl⟩), h3⟩)
      rt.height.toNat (le_refl _) rt.image image himg
    have h := hq i.toNat (by omega) j.toNat (by omega)
    rw [Int.toNat_of_nonneg hi0, Int.toNat_of_nonneg hj0] at h
    obtain ⟨color, hc, h0, h1, h2⟩ := h
    refine ⟨color, hc, h0, h1, h2, fun fuel2 hle => ?_, ?_⟩
    · exact pixel_color_fuel_mono E rt fuel fuel2 hle j i color hc
    · intro rt2 hcam hs hal hpl hbp hbc
      rw [pixel_color_congr E rt rt2 fuel hcam hs hal hpl hbp hbc j i]
      exact hc

/-- Witness of C10: a 2 by 2 image of a scene with one glazed surface,
`bounce_count = 1`; the pixel in column 1 of row 1. -/
theorem update_image_pixels_witness :
    (toy_tracer [toy_surface true 3 1] 1 2 2).width *
        (toy_tracer [toy_surface true 3 1] 1 2 2).height * 3 ≤ 2147483647 ∧
    (toy_tracer [toy_surface true 3 1] 1 2 2).bounce_count < 2147483647 ∧
    ((toy_tracer [toy_surface true 3 1] 1 2 2).bounce_count + 1).toNat < 3 ∧
    ∃ image, update_image toy_engine (toy_tracer [toy_surface true 3 1] 1 2 2) 3 = some image ∧
      ∃ color,
        pixel_color toy_engine (toy_tracer [toy_surface true 3 1] 1 2 2) 3 1 1 = some color ∧
        image ((1 * (toy_tracer [toy_surface true 3 1] 1 2 2).width + 1) * 3)
          = toy_engine.sample (toy_engine.chan_r color) := by
  refine ⟨by decide, by decide, by decide, ?_⟩
  obtain ⟨h1, h2⟩ := update_image_pixels toy_engine (toy_tracer [toy_surface true 3 1] 1 2 2) 3
    (by decide)
  obtain ⟨image, himg⟩ := h1 (by decide) (by decide)
  obtain ⟨color, hc, h0, _⟩ := h2 image himg 1 1 (by decide) (by decide) (by decide) (by decide)
  exact ⟨image, himg, color, hc, h0⟩

end image_claims

end RayTracer
